import Mathlib

/-!
Verification of the migration orchestration subsystem of the chat-api
repository (apps/rag-python/src/rag_python/migration/).

The data model and operations below are a shallow embedding of:
  - models.py        (JobStatus, BatchStatus, IngestionJob, IngestionBatch,
                      SummaryRecord)
  - supabase_client.py (job/batch operations of class SupabaseClient)
  - mysql_client.py  (MySQLClient.get_records_by_ids)
  - worker.py        (MigrationWorker.process_record / process_batch / run)
  - controller.py    (MigrationController.get_or_create_job / create_new_job /
                      monitor_job)

The coordination store (Supabase/PostgreSQL) is modelled as an explicit
state value `MStore` holding the job and batch rows; every database
statement (one PostgREST request or one RPC) is one atomic transformation
of that state, and a Python method that issues several statements is the
sequential composition of its statements.  Wall-clock timestamps are
threaded as a `Nat` parameter `now`.  The free-form job `metadata` map is
not modelled (no verified property mentions it).

The PostgreSQL functions invoked via RPC (claim_next_batch,
bump_batch_progress, get_ingestion_job_stats, create_batches_from_summary_ids,
reset_stuck_batches) are part of this repository's database schema but their
SQL sources are not under src/; those definitions are modelled from the
spec, and each carries a doc comment saying so.
-/

namespace Migration

/-- Job status enum, from models.py JobStatus. -/
inductive JobStatus where
  | pending
  | running
  | completed
  | failed
deriving DecidableEq, Repr

/-- Batch status enum, from models.py BatchStatus. -/
inductive BatchStatus where
  | pending
  | processing
  | completed
  | failed
deriving DecidableEq, Repr

/-- A row of the ingestion_job table, from models.py IngestionJob
(the free-form metadata map is not modelled). -/
structure IngestionJob where
  id : Nat
  status : JobStatus
  total_batches : Nat := 0
  completed_batches : Nat := 0
  failed_batches : Nat := 0
  total_records : Nat := 0
  processed_records : Nat := 0
  failed_records : Nat := 0
  updated_at : Nat := 0
deriving DecidableEq, Repr

/-- A row of the ingestion_batch table, from models.py IngestionBatch. -/
structure IngestionBatch where
  id : Nat
  job_id : Nat
  batch_number : Nat
  start_id : Nat
  end_id : Nat
  record_ids : List Nat
  status : BatchStatus
  processed_count : Nat := 0
  failed_count : Nat := 0
  error_message : Option String := none
  retry_count : Nat := 0
  worker_id : Option String := none
  claimed_at : Option Nat := none
  updated_at : Nat := 0
deriving DecidableEq, Repr

/-- A record of the MySQL ip_summary table as read by
MySQLClient.get_records_by_ids: id, member_code, parse_content
(parse_content may be NULL in the table, hence Option). -/
structure MySQLRow where
  id : Nat
  member_code : String
  parse_content : Option String
deriving DecidableEq, Repr

/-- A validated record, from models.py SummaryRecord. -/
structure SummaryRecord where
  id : Nat
  member_code : String
  parse_content : String
deriving DecidableEq, Repr

/-- The migration-relevant fields of config.py MigrationSettings. -/
structure MigrationSettings where
  batch_size : Nat := 50
  max_retries : Nat := 3
deriving DecidableEq, Repr

/-- The coordination-store state: the ingestion_job and ingestion_batch
tables plus the id sequences used for inserts. -/
structure MStore where
  jobs : List IngestionJob
  batches : List IngestionBatch
  next_job_id : Nat := 0
  next_batch_id : Nat := 0
deriving DecidableEq, Repr

/-- SQL UPDATE ... WHERE p: rewrite every row satisfying p with f. -/
def updateWhere {α : Type} (p : α → Bool) (f : α → α) (l : List α) : List α :=
  l.map (fun b => if p b then f b else b)

/-- Look a batch row up by primary key (rows are assumed key-unique in the
theorems that need it; find? returns the first match). -/
def getBatch (s : MStore) (batchId : Nat) : Option IngestionBatch :=
  s.batches.find? (fun b => b.id == batchId)

/-- Look a job row up by primary key. -/
def getJob (s : MStore) (jobId : Nat) : Option IngestionJob :=
  s.jobs.find? (fun j => j.id == jobId)

/-- The WHERE clause used by the ownership-guarded batch statements:
id = batchId AND worker_id = workerId AND status = processing. -/
def ownedProcessing (batchId : Nat) (workerId : String) (b : IngestionBatch) : Bool :=
  b.id == batchId && b.worker_id == some workerId && b.status == BatchStatus.processing

/-- Pick the row with the lowest batch_number (ORDER BY batch_number LIMIT 1;
ties resolved in favour of the earlier row). -/
def pickMinBatch : List IngestionBatch → Option IngestionBatch
  | [] => none
  | b :: bs =>
    match pickMinBatch bs with
    | none => some b
    | some c => if b.batch_number ≤ c.batch_number then some b else some c

/-- The row written by a successful claim: pending → processing, stamped
with the claiming worker and the claim time. -/
def claimRow (workerId : String) (now : Nat) (b : IngestionBatch) : IngestionBatch :=
  { b with
    status := BatchStatus.processing
    worker_id := some workerId
    claimed_at := some now
    updated_at := now }

/-- Modelled from the spec: the PostgreSQL function claim_next_batch
(invoked by SupabaseClient.claim_next_batch via RPC; its SQL source is not
under src/).  Atomically selects one batch with status = pending for the
job, lowest batch_number first, transitions it to processing, stamps
worker_id and claimed_at, and returns it; returns none if no pending batch
exists.  The FOR UPDATE SKIP LOCKED transaction makes the whole call one
atomic step, which is how it is modelled. -/
def claim_next_batch (s : MStore) (jobId : Nat) (workerId : String) (now : Nat) :
    MStore × Option IngestionBatch :=
  match pickMinBatch (s.batches.filter
      (fun b => b.job_id == jobId && b.status == BatchStatus.pending)) with
  | none => (s, none)
  | some b =>
    ({ s with
        batches := updateWhere (fun x => x.id == b.id)
          (fun _ => claimRow workerId now b) s.batches },
     some (claimRow workerId now b))

/-- The row written by bump_batch_progress: counters incremented by the
deltas, everything else untouched. -/
def bumpRow (processedDelta failedDelta now : Nat) (b : IngestionBatch) : IngestionBatch :=
  { b with
    processed_count := b.processed_count + processedDelta
    failed_count := b.failed_count + failedDelta
    updated_at := now }

/-- Modelled from the spec: the PostgreSQL function bump_batch_progress
(invoked by SupabaseClient.update_batch_progress via RPC; its SQL source is
not under src/).  Atomically adds the deltas to the batch counters, but only
if the batch is currently processing and owned by workerId; otherwise it
changes nothing and returns none (the Python wrapper then returns None). -/
def bump_batch_progress (s : MStore) (batchId : Nat) (workerId : String)
    (processedDelta failedDelta : Nat) (now : Nat) : MStore × Option IngestionBatch :=
  match s.batches.find? (ownedProcessing batchId workerId) with
  | none => (s, none)
  | some b =>
    ({ s with
        batches := updateWhere (fun x => x.id == batchId)
          (fun _ => bumpRow processedDelta failedDelta now b) s.batches },
     some (bumpRow processedDelta failedDelta now b))

/-- From supabase_client.py mark_batch_completed: one PostgREST UPDATE of
ingestion_batch setting status = completed (and updated_at), guarded by
eq filters on id, worker_id and status = processing.  No return value. -/
def mark_batch_completed (s : MStore) (batchId : Nat) (workerId : String) (now : Nat) :
    MStore :=
  { s with
    batches := updateWhere (ownedProcessing batchId workerId)
      (fun b => { b with status := BatchStatus.completed, updated_at := now })
      s.batches }

/-- The row data written by mark_batch_failed's UPDATE, computed from the
retry flag and the retry_count read by the preceding guarded SELECT (row b):
either the reset-to-pending-for-retry columns (when retry is true and
new_retry = retry_count + 1 <= max_retries) or the permanently-failed
columns.  Only the retry branch clears worker_id and claimed_at, exactly as
in the Python dict literals. -/
def markFailedUpd (cfg : MigrationSettings) (errorMessage : String) (retry : Bool)
    (now : Nat) (b : IngestionBatch) : IngestionBatch → IngestionBatch :=
  if retry && b.retry_count + 1 ≤ cfg.max_retries then
    fun x => { x with
      status := BatchStatus.pending
      retry_count := b.retry_count + 1
      error_message := some errorMessage
      worker_id := none
      claimed_at := none
      updated_at := now }
  else
    fun x => { x with
      status := BatchStatus.failed
      retry_count := b.retry_count + 1
      error_message := some errorMessage
      updated_at := now }

/-- From supabase_client.py mark_batch_failed.  Two statements:
(1) a SELECT retry_count ... .eq(id).eq(worker_id).eq(status, processing)
    .single(); PostgREST answers a .single() request matching no row with
    an error status, which postgrest-py raises as APIError — modelled as
    Except.error (the store is left unchanged);
(2) an UPDATE keyed on id only, writing the markFailedUpd row data.
The Python method is annotated -> None and returns no value on any path;
the Option Bool in the result is the value returned to the caller, hence
always none (the spec instead expects the scheduled-for-retry boolean). -/
def mark_batch_failed (cfg : MigrationSettings) (s : MStore) (batchId : Nat)
    (workerId : String) (errorMessage : String) (retry : Bool) (now : Nat) :
    Except String (MStore × Option Bool) :=
  match s.batches.find? (ownedProcessing batchId workerId) with
  | none => Except.error "single row requested, no row matched"
  | some b =>
    Except.ok
      ({ s with
          batches := updateWhere (fun x => x.id == batchId)
            (markFailedUpd cfg errorMessage retry now b) s.batches },
       none)

/-- The aggregate returned by the job-stats RPC. -/
structure JobStatsRow where
  completed_batches : Nat
  failed_batches : Nat
  pending_batches : Nat
  processing_batches : Nat
  processed_records : Nat
  failed_records : Nat
deriving DecidableEq, Repr

/-- Modelled from the spec: the PostgreSQL function get_ingestion_job_stats
(invoked by SupabaseClient.get_job_stats via RPC; its SQL source is not
under src/).  Server-side aggregate over the job's batches: per-status
batch counts plus the sums of the per-batch record counters. -/
def get_job_stats (s : MStore) (jobId : Nat) : JobStatsRow :=
  let bs := s.batches.filter (fun b => b.job_id == jobId)
  { completed_batches := (bs.filter (fun b => b.status == BatchStatus.completed)).length
    failed_batches := (bs.filter (fun b => b.status == BatchStatus.failed)).length
    pending_batches := (bs.filter (fun b => b.status == BatchStatus.pending)).length
    processing_batches := (bs.filter (fun b => b.status == BatchStatus.processing)).length
    processed_records := (bs.map (fun b => b.processed_count)).sum
    failed_records := (bs.map (fun b => b.failed_count)).sum }

/-- From supabase_client.py update_job_stats: read the aggregate and copy
completed_batches, failed_batches, processed_records, failed_records (and
updated_at) into the job row.  The status column is not written. -/
def update_job_stats (s : MStore) (jobId : Nat) (now : Nat) : MStore :=
  let st := get_job_stats s jobId
  { s with
    jobs := updateWhere (fun j => j.id == jobId)
      (fun j => { j with
        completed_batches := st.completed_batches
        failed_batches := st.failed_batches
        processed_records := st.processed_records
        failed_records := st.failed_records
        updated_at := now })
      s.jobs }

/-- From supabase_client.py update_job_status: UPDATE of the status (and
updated_at) column of the job row (the end_time metadata merge on
completion is not modelled, see the module comment). -/
def update_job_status (s : MStore) (jobId : Nat) (status : JobStatus) (now : Nat) :
    MStore :=
  { s with
    jobs := updateWhere (fun j => j.id == jobId)
      (fun j => { j with status := status, updated_at := now })
      s.jobs }

/-- From supabase_client.py create_job: INSERT one ingestion_job row with
status pending and the given totals; returns the inserted row. -/
def create_job (s : MStore) (totalBatches totalRecords : Nat) (now : Nat) :
    MStore × IngestionJob :=
  let job : IngestionJob :=
    { id := s.next_job_id
      status := JobStatus.pending
      total_batches := totalBatches
      total_records := totalRecords
      updated_at := now }
  ({ s with jobs := s.jobs ++ [job], next_job_id := s.next_job_id + 1 }, job)

/-- Split a list into consecutive chunks of size n (n > 0 assumed by use);
the Nat fuel argument of the worker is the list length, enough for one
step per chunk since every step with n > 0 consumes at least one element. -/
def chunkAux {α : Type} (n : Nat) : Nat → List α → List (List α)
  | _, [] => []
  | 0, x :: xs => [x :: xs]
  | fuel + 1, x :: xs =>
    if n = 0 then [x :: xs]
    else (x :: xs).take n :: chunkAux n fuel ((x :: xs).drop n)

/-- Split a list into consecutive chunks of size n (n > 0 assumed by use). -/
def chunkList {α : Type} (n : Nat) (l : List α) : List (List α) :=
  chunkAux n l.length l

/-- Modelled from the spec: the PostgreSQL function
create_batches_from_summary_ids (invoked by
SupabaseClient.create_batches_from_db via RPC; its SQL source is not under
src/).  Single-pass ROW_NUMBER partition of the eligible summary ids into
dense zero-based batches of batch_size, inserted with ON CONFLICT DO
NOTHING on (job_id, batch_number); returns
(total_records, total_batches, inserted_batches).  With zero eligible
records it inserts nothing and returns (0, 0, 0). -/
def create_batches_from_summary_ids (s : MStore) (jobId : Nat) (batchSize : Nat)
    (summaryIds : List Nat) (now : Nat) : MStore × Nat × Nat × Nat :=
  let chunks := chunkList batchSize summaryIds
  let existing := fun n =>
    s.batches.any (fun b => b.job_id == jobId && b.batch_number == n)
  let fresh := (List.range chunks.length).filter (fun n => !existing n)
  let newRows := fresh.map (fun n =>
    let ids := chunks.getD n []
    { id := s.next_batch_id + (fresh.indexOf n)
      job_id := jobId
      batch_number := n
      start_id := ids.headD 0
      end_id := ids.getLastD 0
      record_ids := ids
      status := BatchStatus.pending
      updated_at := now : IngestionBatch })
  ({ s with
      batches := s.batches ++ newRows
      next_batch_id := s.next_batch_id + newRows.length },
   summaryIds.length, chunks.length, newRows.length)

/-- Modelled from the spec: the PostgreSQL function reset_stuck_batches
(invoked by SupabaseClient.reset_stuck_batches via RPC; its SQL source is
not under src/).  Finds batches of the job in processing whose claimed_at
is older than the timeout; each moves back to pending with retry_count + 1
when retry_count < max_retries, else to terminal failed; worker_id and
claimed_at are cleared on the retry path.  Returns the number of batches
reset.  (The computed next-retry backoff time is advisory and not
modelled; the spec leaves its enforcement an open design choice.) -/
def reset_stuck_batches (cfg : MigrationSettings) (s : MStore) (jobId : Nat)
    (timeout : Nat) (now : Nat) : MStore × Nat :=
  let stuck := fun (b : IngestionBatch) =>
    b.job_id == jobId && b.status == BatchStatus.processing &&
      (match b.claimed_at with
       | none => false
       | some t => decide (t + timeout < now))
  let n := (s.batches.filter stuck).length
  ({ s with
      batches := updateWhere stuck
        (fun b =>
          if b.retry_count < cfg.max_retries then
            { b with
              status := BatchStatus.pending
              retry_count := b.retry_count + 1
              worker_id := none
              claimed_at := none
              updated_at := now }
          else
            { b with status := BatchStatus.failed, updated_at := now })
        s.batches },
   n)

/-- Python string truthiness of an Optional[str] column value: NULL and
the empty string are falsy, everything else truthy (mysql_client.py line
`if row["parse_content"]`). -/
def contentTruthy : Option String → Bool
  | none => false
  | some s => !(s == "")

/-- From mysql_client.py MySQLClient.get_records_by_ids: SELECT id,
member_code, parse_content WHERE id IN (ids) (with the empty id list
short-circuited to []), then build SummaryRecord rows, skipping rows whose
parse_content is falsy (NULL or empty string) and defaulting a falsy
parse_content to "" for the kept rows. -/
def get_records_by_ids (table : List MySQLRow) (ids : List Nat) : List SummaryRecord :=
  if ids.isEmpty then []
  else
    ((table.filter (fun r => ids.contains r.id)).filter
        (fun r => contentTruthy r.parse_content)).map
      (fun r =>
        { id := r.id
          member_code := r.member_code
          parse_content := r.parse_content.getD "" })

/-- Python str.strip(): drop whitespace from both ends of the character
sequence (worker.py calls record.parse_content.strip()). -/
def pyStrip (s : String) : String :=
  String.mk (((s.data.dropWhile Char.isWhitespace).reverse.dropWhile
    Char.isWhitespace).reverse)

/-- From worker.py MigrationWorker.process_record.  Returns false when
parse_content is empty or strips to empty (the record is skipped before
ingestion); otherwise the outcome of ingesting the document, supplied as
the oracle `ingest` (ingest_document succeeding = true, any exception =
false via the except branch). -/
def process_record (ingest : Nat → Bool) (r : SummaryRecord) : Bool :=
  if r.parse_content == "" || pyStrip r.parse_content == "" then false
  else ingest r.id

/-- The per-record for-loop of worker.py MigrationWorker.process_batch,
as a recursion over the remaining records.  Arguments i, pc, fc are the
enumerate index and the local processed/failed delta counters; rep
accumulates the (processed_delta, failed_delta) arguments of the
update_batch_progress calls issued so far.  The returned Bool is true when
the loop was abandoned by the InterruptedError raise (shutdown flag seen
set before a record), in which case the final flush is not executed. -/
def process_loop (batchId : Nat) (workerId : String) (shutdown : Nat → Bool)
    (ingest : Nat → Bool) (now : Nat) :
    MStore → List SummaryRecord → Nat → Nat → Nat → List (Nat × Nat) →
    MStore × List (Nat × Nat) × Bool
  | s, [], _, pc, fc, rep =>
    if pc > 0 || fc > 0 then
      let s' := (bump_batch_progress s batchId workerId pc fc now).1
      (s', rep ++ [(pc, fc)], false)
    else (s, rep, false)
  | s, r :: rs, i, pc, fc, rep =>
    if shutdown i then (s, rep, true)
    else
      let ok := process_record ingest r
      let pc' := if ok then pc + 1 else pc
      let fc' := if ok then fc else fc + 1
      if (i + 1) % 10 == 0 then
        let s' := (bump_batch_progress s batchId workerId pc' fc' now).1
        process_loop batchId workerId shutdown ingest now s' rs (i + 1) 0 0
          (rep ++ [(pc', fc')])
      else
        process_loop batchId workerId shutdown ingest now s rs (i + 1) pc' fc' rep

/-- From worker.py MigrationWorker.process_batch.  Fetch the batch's
records from MySQL; an empty fetch marks the batch completed immediately;
otherwise run the per-record loop (progress flushed every 10th record and
once more at batch end when the local counters are nonzero), then mark the
batch completed — unless the loop was abandoned by the shutdown raise, in
which case the except branch calls mark_batch_failed with retry = True.
The result also carries the list of progress deltas reported, and is
Except.error exactly when mark_batch_failed re-raised (its guarded
.single() read matching no row). -/
def process_batch (cfg : MigrationSettings) (table : List MySQLRow)
    (shutdown : Nat → Bool) (ingest : Nat → Bool) (now : Nat)
    (s : MStore) (batch : IngestionBatch) (workerId : String) :
    Except String (MStore × List (Nat × Nat)) :=
  let records := get_records_by_ids table batch.record_ids
  if records.isEmpty then
    Except.ok (mark_batch_completed s batch.id workerId now, [])
  else
    match process_loop batch.id workerId shutdown ingest now s records 0 0 0 [] with
    | (s', rep, false) => Except.ok (mark_batch_completed s' batch.id workerId now, rep)
    | (s', rep, true) =>
      (mark_batch_failed cfg s' batch.id workerId "Worker shutdown" true now).map
        (fun p => (p.1, rep))

/-- From worker.py MigrationWorker.run, line `max_empty_polls = 10`. -/
def max_empty_polls : Nat := 10

/-- From worker.py MigrationWorker.run: the while-loop, with the claim and
batch-processing calls inlined.  fuel bounds the number of iterations (the
Python loop is unbounded); cnt is consecutive_empty_polls.  Returns the
final store, the number of claim_next_batch calls made, the number of
poll-interval sleeps performed, and whether the loop exited via the
max_empty_polls break (false when fuel ran out first or an exception
escaped).  The worker's shutdown_flag is False throughout (nothing in
worker.py ever sets it), so the while-condition is always true. -/
def worker_run_loop (cfg : MigrationSettings) (table : List MySQLRow)
    (ingest : Nat → Bool) (jobId : Nat) (workerId : String) (now : Nat) :
    Nat → MStore → Nat → MStore × Nat × Nat × Bool
  | 0, s, _ => (s, 0, 0, false)
  | fuel + 1, s, cnt =>
    match claim_next_batch s jobId workerId now with
    | (s1, some b) =>
      match process_batch cfg table (fun _ => false) ingest now s1 b workerId with
      | Except.ok (s2, _) =>
        let (s3, c, sl, e) := worker_run_loop cfg table ingest jobId workerId now fuel s2 0
        (s3, c + 1, sl, e)
      | Except.error _ => (s1, 1, 0, false)
    | (s1, none) =>
      let cnt' := cnt + 1
      if cnt' ≥ max_empty_polls then (s1, 1, 0, true)
      else
        let (s3, c, sl, e) := worker_run_loop cfg table ingest jobId workerId now fuel s1 cnt'
        (s3, c + 1, sl + 1, e)

/-- From controller.py MigrationController.monitor_job: one iteration of
the monitoring while-loop — update_job_stats, then get_job_stats; when
pending == 0 and processing == 0 the job status is set to completed (when
failed == 0) or failed and the loop breaks (returned Bool true). -/
def monitor_iteration (s : MStore) (jobId : Nat) (now : Nat) : MStore × Bool :=
  let s1 := update_job_stats s jobId now
  let st := get_job_stats s1 jobId
  if st.pending_batches == 0 && st.processing_batches == 0 then
    (update_job_status s1 jobId
      (if st.failed_batches == 0 then JobStatus.completed else JobStatus.failed) now,
     true)
  else (s1, false)

/-- The monitoring while-loop of controller.py monitor_job, fuel-bounded
(the controller's shutdown_flag stays False when no signal is delivered). -/
def monitor_loop (jobId : Nat) (now : Nat) : Nat → MStore → MStore × Bool
  | 0, s => (s, false)
  | fuel + 1, s =>
    match monitor_iteration s jobId now with
    | (s1, true) => (s1, true)
    | (s1, false) => monitor_loop jobId now fuel s1

/-- From controller.py MigrationController.create_new_job: insert a
pending job with placeholder totals, create its batches in the database,
sys.exit(1) when zero records were found (modelled as Except.error 1, the
process exit code), otherwise write the real totals and set the job
running.  The store is returned on both paths (the rows written before the
exit survive in the database). -/
def create_new_job (cfg : MigrationSettings) (summaryIds : List Nat) (now : Nat)
    (s : MStore) : MStore × Except Nat Nat :=
  let p1 := create_job s 0 0 now
  let p2 := create_batches_from_summary_ids p1.1 p1.2.id cfg.batch_size summaryIds now
  if p2.2.1 == 0 then (p2.1, Except.error 1)
  else
    let s3 : MStore :=
      { p2.1 with
        jobs := updateWhere (fun j => j.id == p1.2.id)
          (fun j => { j with total_batches := p2.2.2.1, total_records := p2.2.1 })
          p2.1.jobs }
    (update_job_status s3 p1.2.id JobStatus.running now, Except.ok p1.2.id)

/-- From controller.py MigrationController.get_or_create_job: list the
active (pending or running) jobs; when none exist, create a new job.  When
some exist and the resume decision (config override or prompt, supplied
here as the Bool `resume`) is positive, reset the first active job's stuck
batches and set it running; when the decision is negative, mark every
active job failed and then create a new job. -/
def get_or_create_job (cfg : MigrationSettings) (resume : Bool)
    (summaryIds : List Nat) (timeout : Nat) (now : Nat) (s : MStore) :
    MStore × Except Nat Nat :=
  match s.jobs.filter
      (fun j => j.status == JobStatus.pending || j.status == JobStatus.running) with
  | [] => create_new_job cfg summaryIds now s
  | job :: rest =>
    if resume then
      let s1 := (reset_stuck_batches cfg s job.id timeout now).1
      (update_job_status s1 job.id JobStatus.running now, Except.ok job.id)
    else
      create_new_job cfg summaryIds now
        ((job :: rest).foldl
          (fun acc j => update_job_status acc j.id JobStatus.failed now) s)

theorem updateWhere_of_not_mem {α : Type} {p : α → Bool} {f : α → α} {l : List α}
    (h : ∀ b ∈ l, p b = false) : updateWhere p f l = l := by
  induction l with
  | nil => rfl
  | cons x xs ih =>
    have hx := h x (List.mem_cons_self x xs)
    have hxs : updateWhere p f xs = xs := ih (fun b hb => h b (List.mem_cons_of_mem x hb))
    simp only [updateWhere, List.map_cons, hx, Bool.false_eq_true, if_false]
    simpa [updateWhere] using hxs

/-- Batch rows have pairwise distinct primary keys (a database invariant of
the id column; hypotheses of several theorems). -/
def keyUnique (s : MStore) : Prop :=
  (s.batches.map (fun b => b.id)).Nodup

instance (s : MStore) : Decidable (keyUnique s) := by
  unfold keyUnique
  infer_instance

theorem batch_eq_of_keyUnique {s : MStore} (hu : keyUnique s) {b c : IngestionBatch}
    (hb : b ∈ s.batches) (hc : c ∈ s.batches) (hid : b.id = c.id) : b = c :=
  List.inj_on_of_nodup_map hu hb hc hid

theorem getBatch_mem {s : MStore} {k : Nat} {b : IngestionBatch}
    (h : getBatch s k = some b) : b ∈ s.batches ∧ b.id = k := by
  refine ⟨List.mem_of_find?_eq_some h, ?_⟩
  have := List.find?_some h
  simpa using this

/-- A guarded find? keyed on id agrees with the plain key lookup when the
looked-up row satisfies the guard (keys unique). -/
theorem find?_ownedProcessing_eq_some {s : MStore} {k : Nat} {w : String}
    {b : IngestionBatch} (hb : getBatch s k = some b)
    (hg : ownedProcessing k w b = true) :
    s.batches.find? (ownedProcessing k w) = some b := by
  obtain ⟨hmem, hid⟩ := getBatch_mem hb
  rw [List.find?_eq_some]
  obtain ⟨_, l1, l2, hsplit, hnone⟩ := List.find?_eq_some.mp hb
  refine ⟨hg, l1, l2, hsplit, ?_⟩
  intro x hx
  have hxid : (x.id == k) = false := by
    have := hnone x hx
    simpa using this
  simp only [ownedProcessing, hxid, Bool.false_and, Bool.not_false]

/-- A guarded find? keyed on id fails when the looked-up row at that key
does not satisfy the guard (keys unique). -/
theorem find?_ownedProcessing_eq_none {s : MStore} {k : Nat} {w : String}
    {b : IngestionBatch} (hu : keyUnique s) (hb : getBatch s k = some b)
    (hg : ownedProcessing k w b = false) :
    s.batches.find? (ownedProcessing k w) = none := by
  obtain ⟨hmem, hid⟩ := getBatch_mem hb
  rw [List.find?_eq_none]
  intro c hc hgc
  have hparts := hgc
  simp only [ownedProcessing, Bool.and_eq_true, beq_iff_eq] at hparts
  have hcb : c = b := batch_eq_of_keyUnique hu hc hmem (hparts.1.1.trans hid.symm)
  rw [hcb, hg] at hgc
  exact Bool.false_ne_true hgc

/-- Looking a key up after an UPDATE whose row function preserves the key:
the found row is the original row, rewritten when the WHERE clause held. -/
theorem find?_key_updateWhere {α : Type} (key : α → Nat) {p : α → Bool} {f : α → α}
    (hf : ∀ x, p x = true → key (f x) = key x) (l : List α) (k : Nat) :
    (updateWhere p f l).find? (fun x => key x == k) =
      (l.find? (fun x => key x == k)).map (fun b => if p b then f b else b) := by
  unfold updateWhere
  rw [List.find?_map]
  have hpred : ((fun x => key x == k) ∘ fun b => if p b then f b else b) =
      (fun x => key x == k) := by
    funext b
    by_cases hp : p b <;> simp [hp, hf, Function.comp]
  rw [hpred]

/-- An UPDATE whose row function preserves the key preserves the key list
(hence key uniqueness). -/
theorem map_key_updateWhere {α : Type} (key : α → Nat) {p : α → Bool} {f : α → α}
    (hf : ∀ x, p x = true → key (f x) = key x) (l : List α) :
    (updateWhere p f l).map key = l.map key := by
  unfold updateWhere
  rw [List.map_map]
  apply List.map_congr_left
  intro a _
  by_cases hp : p a <;> simp [hp, hf, Function.comp]

/-- The predicate selecting the pending batches of a job (the WHERE clause
of the claim query and the pending-count aggregate). -/
def pendingFor (jobId : Nat) (b : IngestionBatch) : Bool :=
  b.job_id == jobId && b.status == BatchStatus.pending

theorem claim_next_batch_of_no_pending {s : MStore} {jobId : Nat}
    (h : ∀ b ∈ s.batches, pendingFor jobId b = false)
    (workerId : String) (now : Nat) :
    claim_next_batch s jobId workerId now = (s, none) := by
  have hfilter : s.batches.filter
      (fun b => b.job_id == jobId && b.status == BatchStatus.pending) = [] := by
    apply List.filter_eq_nil_iff.mpr
    intro b hb
    simpa [pendingFor] using h b hb
  simp [claim_next_batch, hfilter, pickMinBatch]

theorem worker_run_loop_all_empty (cfg : MigrationSettings) (table : List MySQLRow)
    (ingest : Nat → Bool) (jobId : Nat) (workerId : String) (now : Nat) (s : MStore)
    (h : ∀ b ∈ s.batches, pendingFor jobId b = false) :
    ∀ fuel cnt, cnt < 10 → 10 - cnt ≤ fuel →
      worker_run_loop cfg table ingest jobId workerId now fuel s cnt =
        (s, 10 - cnt, 10 - cnt - 1, true) := by
  intro fuel
  induction fuel with
  | zero =>
    intro cnt hc hf
    omega
  | succ fuel ih =>
    intro cnt hc hf
    rw [worker_run_loop, claim_next_batch_of_no_pending h]
    simp only [max_empty_polls]
    by_cases hlast : cnt + 1 ≥ 10
    · have hcnt : cnt = 9 := by omega
      simp only [ge_iff_le, if_pos (by omega : 10 ≤ cnt + 1)]
      subst hcnt
      rfl
    · have hlt2 : cnt + 1 < 10 := by omega
      have hfl : 10 - (cnt + 1) ≤ fuel := by omega
      simp only [ge_iff_le, if_neg (by omega : ¬ 10 ≤ cnt + 1)]
      rw [ih (cnt + 1) hlt2 hfl]
      have e1 : 10 - (cnt + 1) + 1 = 10 - cnt := by omega
      have e2 : 10 - (cnt + 1) - 1 + 1 = 10 - cnt - 1 := by omega
      simp [e1, e2]
      omega

/-- C7 — In the worker main loop, when ClaimNextBatch returns None on every
call (no pending batch exists for the job), the loop terminates through the
max-empty-polls break after exactly 10 claim calls with 9 poll-interval
sleeps between them, leaving the store untouched; and an iteration whose
claim succeeds (and whose batch processing returns normally) continues the
loop with the consecutive-empty-poll counter reset to zero. -/
theorem worker_loop_ten_empty_polls
    (cfg : MigrationSettings) (table : List MySQLRow) (ingest : Nat → Bool)
    (jobId : Nat) (workerId : String) (now : Nat) (s : MStore) (fuel : Nat)
    (hnp : ∀ b ∈ s.batches, pendingFor jobId b = false)
    (hfuel : 10 ≤ fuel) :
    worker_run_loop cfg table ingest jobId workerId now fuel s 0 = (s, 10, 9, true)
    ∧ (∀ fuel2 s2 cnt s3 b s4 rep,
        claim_next_batch s2 jobId workerId now = (s3, some b) →
        process_batch cfg table (fun _ => false) ingest now s3 b workerId =
          Except.ok (s4, rep) →
        worker_run_loop cfg table ingest jobId workerId now (fuel2 + 1) s2 cnt =
          (let r := worker_run_loop cfg table ingest jobId workerId now fuel2 s4 0
           (r.1, r.2.1 + 1, r.2.2.1, r.2.2.2))) := by
  constructor
  · have h0 := worker_run_loop_all_empty cfg table ingest jobId workerId now s hnp
      fuel 0 (by omega) (by omega)
    simpa using h0
  · intro fuel2 s2 cnt s3 b s4 rep hclaim hproc
    rw [worker_run_loop, hclaim]
    simp only [hproc]

/-- Witness for worker_loop_ten_empty_polls: the empty store has no pending
batch, and with fuel 12 the loop stops at (store, 10 polls, 9 sleeps). -/
theorem worker_loop_ten_empty_polls_witness :
    worker_run_loop {} [] (fun _ => true) 0 "w" 0 12
      { jobs := [], batches := [] } 0 = ({ jobs := [], batches := [] }, 10, 9, true) :=
  (worker_loop_ten_empty_polls {} [] (fun _ => true) 0 "w" 0
    { jobs := [], batches := [] } 12 (by intro b hb; simp at hb) (by decide)).1

theorem ownedProcessing_false_of_mismatch {k : Nat} {w : String} {b : IngestionBatch}
    (hmm : ¬ (b.worker_id = some w ∧ b.status = BatchStatus.processing)) :
    ownedProcessing k w b = false := by
  by_cases h : ownedProcessing k w b = true
  · exfalso
    apply hmm
    simp only [ownedProcessing, Bool.and_eq_true, beq_iff_eq] at h
    exact ⟨h.1.2, h.2⟩
  · simpa using h

/-- C2 — A BumpBatchProgress, MarkBatchCompleted or MarkBatchFailed call
whose worker_id does not match the batch's current owner, or whose batch is
not in processing state, leaves the store (hence every field of the batch)
unchanged; BumpBatchProgress returns None and MarkBatchCompleted's guarded
UPDATE matches no row (a silent no-op).  MarkBatchFailed's guarded
single-row read matches no row, so its UPDATE is never reached (the call
surfaces the PostgREST error instead of mutating anything). -/
theorem stale_worker_mutations_rejected
    (s : MStore) (k : Nat) (w : String) (pd fd : Nat) (err : String) (retry : Bool)
    (now : Nat) (cfg : MigrationSettings) (b : IngestionBatch)
    (hu : keyUnique s) (hb : getBatch s k = some b)
    (hmm : ¬ (b.worker_id = some w ∧ b.status = BatchStatus.processing)) :
    bump_batch_progress s k w pd fd now = (s, none)
    ∧ mark_batch_completed s k w now = s
    ∧ mark_batch_failed cfg s k w err retry now =
        Except.error "single row requested, no row matched" := by
  have hg : ownedProcessing k w b = false := ownedProcessing_false_of_mismatch hmm
  have hnone : s.batches.find? (ownedProcessing k w) = none :=
    find?_ownedProcessing_eq_none hu hb hg
  have hall : ∀ x ∈ s.batches, ownedProcessing k w x = false := by
    intro x hx
    have := List.find?_eq_none.mp hnone x hx
    simpa using this
  refine ⟨?_, ?_, ?_⟩
  · simp [bump_batch_progress, hnone]
  · simp [mark_batch_completed, updateWhere_of_not_mem hall]
  · simp [mark_batch_failed, hnone]

/-- Fixture: a store with a single batch (id 1) in processing owned by
worker w1. -/
def storeOwned : MStore :=
  { jobs := []
    batches := [
      { id := 1, job_id := 0, batch_number := 0, start_id := 10, end_id := 12,
        record_ids := [10, 11, 12], status := BatchStatus.processing,
        processed_count := 2, failed_count := 1, retry_count := 0,
        worker_id := some "w1", claimed_at := some 3, updated_at := 3 }] }

/-- Witness for stale_worker_mutations_rejected: a concrete stale call by
worker w2 on a batch owned by w1 changes nothing. -/
theorem stale_worker_mutations_rejected_witness :
    bump_batch_progress storeOwned 1 "w2" 3 4 9 = (storeOwned, none)
    ∧ mark_batch_completed storeOwned 1 "w2" 9 = storeOwned
    ∧ mark_batch_failed {} storeOwned 1 "w2" "boom" true 9 =
        Except.error "single row requested, no row matched" :=
  stale_worker_mutations_rejected storeOwned 1 "w2" 3 4 "boom" true 9 {}
    { id := 1, job_id := 0, batch_number := 0, start_id := 10, end_id := 12,
      record_ids := [10, 11, 12], status := BatchStatus.processing,
      processed_count := 2, failed_count := 1, retry_count := 0,
      worker_id := some "w1", claimed_at := some 3, updated_at := 3 }
    (by decide) rfl (by decide)

theorem markFailedUpd_id (cfg : MigrationSettings) (err : String) (retry : Bool)
    (now : Nat) (b x : IngestionBatch) :
    (markFailedUpd cfg err retry now b x).id = x.id := by
  unfold markFailedUpd
  by_cases h : (retry && b.retry_count + 1 ≤ cfg.max_retries) = true <;> simp [h]

/-- Helper: full behavior of MarkBatchFailed on an owned processing batch
(pending-for-retry or terminally failed, other rows untouched, no return
value). -/
theorem mark_batch_failed_owned
    (cfg : MigrationSettings) (s : MStore) (k : Nat) (w : String) (err : String)
    (retry : Bool) (now : Nat) (b : IngestionBatch)
    (hu : keyUnique s) (hb : getBatch s k = some b)
    (hw : b.worker_id = some w) (hst : b.status = BatchStatus.processing) :
    ∃ s', mark_batch_failed cfg s k w err retry now = Except.ok (s', none)
      ∧ getBatch s' k = some
          (if retry ∧ b.retry_count < cfg.max_retries then
            { b with
              status := BatchStatus.pending
              retry_count := b.retry_count + 1
              error_message := some err
              worker_id := none
              claimed_at := none
              updated_at := now }
          else
            { b with
              status := BatchStatus.failed
              retry_count := b.retry_count + 1
              error_message := some err
              updated_at := now })
      ∧ (∀ k2, k2 ≠ k → getBatch s' k2 = getBatch s k2)
      ∧ keyUnique s' := by
  have hg : ownedProcessing k w b = true := by
    obtain ⟨_, hid⟩ := getBatch_mem hb
    simp [ownedProcessing, hid, hw, hst]
  have hsome : s.batches.find? (ownedProcessing k w) = some b :=
    find?_ownedProcessing_eq_some hb hg
  obtain ⟨hmem, hid⟩ := getBatch_mem hb
  have hfid : ∀ x, (x.id == k) = true → (markFailedUpd cfg err retry now b x).id = x.id :=
    fun x _ => markFailedUpd_id cfg err retry now b x
  refine ⟨{ s with
      batches := updateWhere (fun x => x.id == k)
        (markFailedUpd cfg err retry now b) s.batches }, ?_, ?_, ?_, ?_⟩
  · unfold mark_batch_failed
    rw [hsome]
  · show (updateWhere (fun x => x.id == k) (markFailedUpd cfg err retry now b)
        s.batches).find? (fun x => x.id == k) = _
    rw [find?_key_updateWhere (fun x => x.id) hfid s.batches k]
    have hbfind : s.batches.find? (fun x => x.id == k) = some b := hb
    rw [hbfind]
    have hbk : (b.id == k) = true := by simp [hid]
    simp only [Option.map_some', hbk, if_true]
    by_cases hr : retry <;> by_cases hn : b.retry_count < cfg.max_retries <;>
      simp [markFailedUpd, hr, hn, Nat.add_one_le_iff]
  · intro k2 hk2
    show (updateWhere (fun x => x.id == k) (markFailedUpd cfg err retry now b)
        s.batches).find? (fun x => x.id == k2) = getBatch s k2
    rw [find?_key_updateWhere (fun x => x.id) hfid s.batches k2]
    unfold getBatch
    cases hfind : s.batches.find? (fun x => x.id == k2) with
    | none => rfl
    | some c =>
      have hcid : c.id = k2 := by
        have := List.find?_some hfind
        simpa using this
      simp [hcid, hk2]
  · show ((updateWhere (fun x => x.id == k) (markFailedUpd cfg err retry now b)
        s.batches).map (fun x => x.id)).Nodup
    rw [map_key_updateWhere (fun x => x.id) hfid s.batches]
    exact hu

/-- C3 (amended) — For an owned processing batch, MarkBatchFailed moves it
back to pending with retry_count + 1, worker_id and claimed_at cleared and
the error recorded when retry is true and retry_count < max_retries, and
otherwise to terminal failed with retry_count + 1 and the error recorded;
every other row is untouched.  The call returns no value (the Python method
is annotated -> None; the retry decision is only logged), modelled as the
always-none second component. -/
theorem mark_batch_failed_behavior
    (cfg : MigrationSettings) (s : MStore) (k : Nat) (w : String) (err : String)
    (retry : Bool) (now : Nat) (b : IngestionBatch)
    (hu : keyUnique s) (hb : getBatch s k = some b)
    (hw : b.worker_id = some w) (hst : b.status = BatchStatus.processing) :
    ∃ s', mark_batch_failed cfg s k w err retry now = Except.ok (s', none)
      ∧ getBatch s' k = some
          (if retry ∧ b.retry_count < cfg.max_retries then
            { b with
              status := BatchStatus.pending
              retry_count := b.retry_count + 1
              error_message := some err
              worker_id := none
              claimed_at := none
              updated_at := now }
          else
            { b with
              status := BatchStatus.failed
              retry_count := b.retry_count + 1
              error_message := some err
              updated_at := now })
      ∧ (∀ k2, k2 ≠ k → getBatch s' k2 = getBatch s k2)
      ∧ keyUnique s' :=
  mark_batch_failed_owned cfg s k w err retry now b hu hb hw hst

/-- Fixture: a processing batch owned by w1 with retry_count already at the
default max_retries (3). -/
def batchR3 : IngestionBatch :=
  { id := 1, job_id := 0, batch_number := 0, start_id := 10, end_id := 12,
    record_ids := [10, 11, 12], status := BatchStatus.processing,
    processed_count := 2, failed_count := 1, retry_count := 3,
    worker_id := some "w1", claimed_at := some 3, updated_at := 3 }

/-- Fixture: a store containing only batchR3. -/
def storeOwnedR3 : MStore := { jobs := [], batches := [batchR3] }

/-- Witness for mark_batch_failed_behavior: the batch with
retry_count = max_retries = 3 that fails once more with retry = true moves
to terminal failed (the else branch of the conclusion's if). -/
theorem mark_batch_failed_behavior_witness :
    ∃ s', mark_batch_failed {} storeOwnedR3 1 "w1" "boom" true 9 = Except.ok (s', none)
      ∧ getBatch s' 1 = some
          (if (true : Bool) ∧ batchR3.retry_count <
              MigrationSettings.max_retries {} then
            { batchR3 with
              status := BatchStatus.pending
              retry_count := batchR3.retry_count + 1
              error_message := some "boom"
              worker_id := none
              claimed_at := none
              updated_at := 9 }
          else
            { batchR3 with
              status := BatchStatus.failed
              retry_count := batchR3.retry_count + 1
              error_message := some "boom"
              updated_at := 9 })
      ∧ (∀ k2, k2 ≠ 1 → getBatch s' k2 = getBatch storeOwnedR3 k2)
      ∧ keyUnique s' :=
  mark_batch_failed_behavior {} storeOwnedR3 1 "w1" "boom" true 9 batchR3
    (by decide) rfl rfl rfl

/-- Counterexample to C3's return clause: a concrete MarkBatchFailed call
that does schedule its batch for retry (the batch moves back to pending)
returns no boolean — the value returned to the caller is none, never
some true, because the Python method is annotated -> None. -/
theorem mark_batch_failed_return_counterexample :
    (mark_batch_failed {} storeOwned 1 "w1" "boom" true 9).map Prod.snd =
      Except.ok none
    ∧ (mark_batch_failed {} storeOwned 1 "w1" "boom" true 9).map
        (fun p => (getBatch p.1 1).map (fun x => x.status)) =
      Except.ok (some BatchStatus.pending)
    ∧ (none : Option Bool) ≠ some true := by
  refine ⟨by rfl, by rfl, by simp⟩

/-- Sum of a list of progress reports: processed plus failed over all
reported deltas. -/
def deltaSum (rep : List (Nat × Nat)) : Nat :=
  (rep.map (fun p => p.1 + p.2)).sum

theorem deltaSum_append (r1 r2 : List (Nat × Nat)) :
    deltaSum (r1 ++ r2) = deltaSum r1 + deltaSum r2 := by
  simp [deltaSum]

/-- A bump by the owning worker of a processing batch: the bumped row is
returned and stored, other rows are untouched, keys stay unique. -/
theorem bump_batch_progress_owned {s : MStore} {k : Nat} {w : String}
    (pd fd now : Nat) {b : IngestionBatch}
    (hu : keyUnique s) (hb : getBatch s k = some b)
    (hw : b.worker_id = some w) (hst : b.status = BatchStatus.processing) :
    (bump_batch_progress s k w pd fd now).2 = some (bumpRow pd fd now b)
    ∧ getBatch (bump_batch_progress s k w pd fd now).1 k = some (bumpRow pd fd now b)
    ∧ (∀ k2, k2 ≠ k →
        getBatch (bump_batch_progress s k w pd fd now).1 k2 = getBatch s k2)
    ∧ keyUnique (bump_batch_progress s k w pd fd now).1 := by
  obtain ⟨hmem, hid⟩ := getBatch_mem hb
  have hg : ownedProcessing k w b = true := by
    simp [ownedProcessing, hid, hw, hst]
  have hsome : s.batches.find? (ownedProcessing k w) = some b :=
    find?_ownedProcessing_eq_some hb hg
  have hfid : ∀ x : IngestionBatch, (x.id == k) = true →
      (bumpRow pd fd now b).id = x.id := by
    intro x hx
    have : x.id = k := by simpa using hx
    simp [bumpRow, hid, this]
  have hrw : bump_batch_progress s k w pd fd now =
      ({ s with
          batches := updateWhere (fun x => x.id == k)
            (fun _ => bumpRow pd fd now b) s.batches },
       some (bumpRow pd fd now b)) := by
    unfold bump_batch_progress
    rw [hsome]
  rw [hrw]
  refine ⟨rfl, ?_, ?_, ?_⟩
  · show (updateWhere (fun x => x.id == k) (fun _ => bumpRow pd fd now b)
        s.batches).find? (fun x => x.id == k) = _
    rw [find?_key_updateWhere (fun x => x.id) hfid s.batches k]
    have hbfind : s.batches.find? (fun x => x.id == k) = some b := hb
    rw [hbfind]
    have hbk : (b.id == k) = true := by simp [hid]
    simp only [Option.map_some']
    rw [if_pos hbk]
  · intro k2 hk2
    show (updateWhere (fun x => x.id == k) (fun _ => bumpRow pd fd now b)
        s.batches).find? (fun x => x.id == k2) = getBatch s k2
    rw [find?_key_updateWhere (fun x => x.id) hfid s.batches k2]
    unfold getBatch
    cases hfind : s.batches.find? (fun x => x.id == k2) with
    | none => rfl
    | some c =>
      have hcid : c.id = k2 := by
        have := List.find?_some hfind
        simpa using this
      simp [hcid, hk2]
  · show ((updateWhere (fun x => x.id == k) (fun _ => bumpRow pd fd now b)
        s.batches).map (fun x => x.id)).Nodup
    rw [map_key_updateWhere (fun x => x.id) hfid s.batches]
    exact hu

/-- bumpRow changes only the counters (and updated_at). -/
theorem bumpRow_fields (pd fd now : Nat) (b : IngestionBatch) :
    (bumpRow pd fd now b).worker_id = b.worker_id
    ∧ (bumpRow pd fd now b).status = b.status
    ∧ (bumpRow pd fd now b).processed_count = b.processed_count + pd
    ∧ (bumpRow pd fd now b).failed_count = b.failed_count + fd := by
  simp [bumpRow]

/-- MarkBatchCompleted by the owning worker of a processing batch: the row
moves to completed with its counters intact; other rows untouched. -/
theorem mark_batch_completed_owned {s : MStore} {k : Nat} {w : String}
    (now : Nat) {b : IngestionBatch}
    (hu : keyUnique s) (hb : getBatch s k = some b)
    (hw : b.worker_id = some w) (hst : b.status = BatchStatus.processing) :
    getBatch (mark_batch_completed s k w now) k =
      some { b with status := BatchStatus.completed, updated_at := now }
    ∧ (∀ k2, k2 ≠ k → getBatch (mark_batch_completed s k w now) k2 = getBatch s k2)
    ∧ keyUnique (mark_batch_completed s k w now) := by
  obtain ⟨hmem, hid⟩ := getBatch_mem hb
  have hg : ownedProcessing k w b = true := by
    simp [ownedProcessing, hid, hw, hst]
  have hfid : ∀ x, ownedProcessing k w x = true →
      ({ x with status := BatchStatus.completed, updated_at := now } :
        IngestionBatch).id = x.id := by
    intro x _
    rfl
  refine ⟨?_, ?_, ?_⟩
  · show (updateWhere (ownedProcessing k w) _ s.batches).find? (fun x => x.id == k) = _
    rw [find?_key_updateWhere (fun x => x.id) hfid s.batches k]
    have hbfind : s.batches.find? (fun x => x.id == k) = some b := hb
    rw [hbfind]
    simp [hg]
  · intro k2 hk2
    show (updateWhere (ownedProcessing k w) _ s.batches).find? (fun x => x.id == k2) =
      getBatch s k2
    rw [find?_key_updateWhere (fun x => x.id) hfid s.batches k2]
    unfold getBatch
    cases hfind : s.batches.find? (fun x => x.id == k2) with
    | none => rfl
    | some c =>
      have hcid : c.id = k2 := by
        have := List.find?_some hfind
        simpa using this
      have hcp : ownedProcessing k w c = false := by
        simp only [ownedProcessing]
        have : (c.id == k) = false := by simp [hcid, hk2]
        simp [this]
      simp [hcp]
  · show ((updateWhere (ownedProcessing k w) _ s.batches).map (fun x => x.id)).Nodup
    rw [map_key_updateWhere (fun x => x.id) hfid s.batches]
    exact hu

/-- The per-record loop with the shutdown flag never set: it is never
abandoned, every record lands in exactly one reported delta (the reported
deltas grow by local counters plus one per record), keys stay unique, the
batch row stays owned-processing with its counters grown by exactly the
flushed amounts, and no other row is touched. -/
theorem process_loop_conserves (k : Nat) (w : String) (ingest : Nat → Bool) (now : Nat) :
    ∀ (records : List SummaryRecord) (s : MStore) (b : IngestionBatch)
      (i pc fc : Nat) (rep : List (Nat × Nat)),
      keyUnique s → getBatch s k = some b → b.worker_id = some w →
      b.status = BatchStatus.processing →
      (process_loop k w (fun _ => false) ingest now s records i pc fc rep).2.2 = false
      ∧ deltaSum (process_loop k w (fun _ => false) ingest now s records i pc fc rep).2.1
          = deltaSum rep + pc + fc + records.length
      ∧ keyUnique (process_loop k w (fun _ => false) ingest now s records i pc fc rep).1
      ∧ (∃ b2, getBatch
            (process_loop k w (fun _ => false) ingest now s records i pc fc rep).1 k
            = some b2
          ∧ b2.worker_id = some w
          ∧ b2.status = BatchStatus.processing
          ∧ b2.processed_count + b2.failed_count
              = b.processed_count + b.failed_count + pc + fc + records.length)
      ∧ (∀ k2, k2 ≠ k →
          getBatch (process_loop k w (fun _ => false) ingest now s records i pc fc rep).1 k2
            = getBatch s k2) := by
  intro records
  induction records with
  | nil =>
    intro s b i pc fc rep hu hb hw hst
    by_cases hflush : pc > 0 || fc > 0
    · obtain ⟨hret, hget, hoth, hku⟩ := bump_batch_progress_owned pc fc now hu hb hw hst
      simp only [process_loop, hflush, if_true]
      refine ⟨by trivial, ?_, hku, ⟨bumpRow pc fc now b, hget, ?_, ?_, ?_⟩, hoth⟩
      · rw [deltaSum_append]
        simp [deltaSum]
        omega
      · simpa [bumpRow] using hw
      · simpa [bumpRow] using hst
      · simp [bumpRow]
        omega
    · have hpc : pc = 0 := by
        rcases Nat.eq_zero_or_pos pc with h | h
        · exact h
        · exfalso; apply hflush; simp [h]
      have hfc : fc = 0 := by
        rcases Nat.eq_zero_or_pos fc with h | h
        · exact h
        · exfalso; apply hflush; simp [h]
      subst hpc; subst hfc
      simp only [process_loop]
      refine ⟨rfl, by simp, hu, ⟨b, hb, hw, hst, by simp⟩, fun _ _ => rfl⟩
  | cons r rs ih =>
    intro s b i pc fc rep hu hb hw hst
    simp only [process_loop, if_neg (by simp : ¬ (false = true))]
    by_cases hmod : ((i + 1) % 10 == 0) = true
    · rw [if_pos hmod]
      obtain ⟨hret, hget, hoth, hku⟩ :=
        bump_batch_progress_owned
          (if process_record ingest r then pc + 1 else pc)
          (if process_record ingest r then fc else fc + 1) now hu hb hw hst
      have hw2 : (bumpRow (if process_record ingest r then pc + 1 else pc)
          (if process_record ingest r then fc else fc + 1) now b).worker_id = some w := by
        simpa [bumpRow] using hw
      have hst2 : (bumpRow (if process_record ingest r then pc + 1 else pc)
          (if process_record ingest r then fc else fc + 1) now b).status
            = BatchStatus.processing := by
        simpa [bumpRow] using hst
      obtain ⟨hend, hsum, hku2, ⟨b2, hgb2, hwb2, hstb2, hcnt⟩, hoth2⟩ :=
        ih _ _ (i + 1) 0 0 _ hku hget hw2 hst2
      refine ⟨hend, ?_, hku2, ⟨b2, hgb2, hwb2, hstb2, ?_⟩, ?_⟩
      · rw [hsum, deltaSum_append]
        simp only [deltaSum, List.map_cons, List.map_nil, List.sum_cons, List.sum_nil]
        by_cases hok : process_record ingest r <;> simp [hok] <;> omega
      · rw [hcnt]
        simp only [bumpRow]
        by_cases hok : process_record ingest r <;> simp [hok] <;> omega
      · intro k2 hk2
        rw [hoth2 k2 hk2, hoth k2 hk2]
    · rw [if_neg hmod]
      obtain ⟨hend, hsum, hku2, ⟨b2, hgb2, hwb2, hstb2, hcnt⟩, hoth2⟩ :=
        ih s b (i + 1) (if process_record ingest r then pc + 1 else pc)
          (if process_record ingest r then fc else fc + 1) rep hu hb hw hst
      refine ⟨hend, ?_, hku2, ⟨b2, hgb2, hwb2, hstb2, ?_⟩, hoth2⟩
      · rw [hsum]
        by_cases hok : process_record ingest r <;> simp [hok] <;> omega
      · rw [hcnt]
        by_cases hok : process_record ingest r <;> simp [hok] <;> omega

/-- C5 — Progress is reported as deltas: local counters are flushed by
BumpBatchProgress after every 10th record and once more at batch end, then
reset to zero, so for a batch whose fetch yields N records the reported
deltas sum to N (each record is counted in exactly one delta), and — all
reports being accepted since the worker owns the batch throughout — the
batch row ends with processed_count + failed_count equal to that sum and
at most N, marked completed. -/
theorem progress_deltas_conserved
    (cfg : MigrationSettings) (table : List MySQLRow) (ingest : Nat → Bool) (now : Nat)
    (s : MStore) (batch : IngestionBatch) (w : String) (b : IngestionBatch)
    (hu : keyUnique s) (hb : getBatch s batch.id = some b)
    (hw : b.worker_id = some w) (hst : b.status = BatchStatus.processing)
    (hp0 : b.processed_count = 0) (hf0 : b.failed_count = 0) :
    ∃ s' rep, process_batch cfg table (fun _ => false) ingest now s batch w
        = Except.ok (s', rep)
      ∧ deltaSum rep = (get_records_by_ids table batch.record_ids).length
      ∧ (∃ b2, getBatch s' batch.id = some b2
          ∧ b2.processed_count + b2.failed_count = deltaSum rep
          ∧ b2.processed_count + b2.failed_count
              ≤ (get_records_by_ids table batch.record_ids).length
          ∧ b2.status = BatchStatus.completed) := by
  by_cases hempty : (get_records_by_ids table batch.record_ids).isEmpty
  · obtain ⟨hget, hoth, hku⟩ := mark_batch_completed_owned now hu hb hw hst
    refine ⟨mark_batch_completed s batch.id w now, [], ?_, ?_, ?_⟩
    · unfold process_batch
      rw [if_pos hempty]
    · rw [List.isEmpty_iff] at hempty
      simp [deltaSum, hempty]
    · exact ⟨_, hget, by simp [deltaSum, hp0, hf0], by simp [hp0, hf0], by simp⟩
  · obtain ⟨hend, hsum, hku1, hex, hoth1⟩ :=
      process_loop_conserves batch.id w ingest now
        (get_records_by_ids table batch.record_ids) s b 0 0 0 [] hu hb hw hst
    rcases hX : process_loop batch.id w (fun _ => false) ingest now s
        (get_records_by_ids table batch.record_ids) 0 0 0 [] with ⟨s1, rep1, flag⟩
    rw [hX] at hend hsum hku1 hex hoth1
    simp only at hend hsum hku1 hex hoth1
    subst hend
    obtain ⟨b2, hgb2, hwb2, hstb2, hcnt⟩ := hex
    obtain ⟨hget2, hoth2, hku2⟩ := mark_batch_completed_owned now hku1 hgb2 hwb2 hstb2
    refine ⟨mark_batch_completed s1 batch.id w now, rep1, ?_, ?_, ?_⟩
    · unfold process_batch
      rw [if_neg (by simpa using hempty), hX]
    · rw [hsum]
      simp [deltaSum]
    · refine ⟨{ b2 with status := BatchStatus.completed, updated_at := now },
        hget2, ?_, ?_, rfl⟩
      · show b2.processed_count + b2.failed_count = _
        rw [hcnt, hsum, hp0, hf0]
        simp [deltaSum]
      · show b2.processed_count + b2.failed_count ≤ _
        rw [hcnt, hp0, hf0]
        omega

/-- Fixture: a claimed batch with zero counters over record ids 10-12. -/
def batchC5 : IngestionBatch :=
  { id := 1, job_id := 0, batch_number := 0, start_id := 10, end_id := 12,
    record_ids := [10, 11, 12], status := BatchStatus.processing,
    processed_count := 0, failed_count := 0, retry_count := 0,
    worker_id := some "w1", claimed_at := some 3, updated_at := 3 }

/-- Fixture: a store containing only batchC5. -/
def storeC5 : MStore := { jobs := [], batches := [batchC5] }

/-- Fixture: the MySQL rows backing batchC5's record ids. -/
def tableC5 : List MySQLRow :=
  [{ id := 10, member_code := "m", parse_content := some "a" },
   { id := 11, member_code := "m", parse_content := some "b" },
   { id := 12, member_code := "m", parse_content := some "c" }]

/-- Witness for progress_deltas_conserved at a concrete 3-record batch with
one ingest failure. -/
theorem progress_deltas_conserved_witness :
    ∃ s' rep, process_batch {} tableC5 (fun _ => false) (fun i => !(i == 11)) 7
        storeC5 batchC5 "w1" = Except.ok (s', rep)
      ∧ deltaSum rep = (get_records_by_ids tableC5 batchC5.record_ids).length
      ∧ (∃ b2, getBatch s' batchC5.id = some b2
          ∧ b2.processed_count + b2.failed_count = deltaSum rep
          ∧ b2.processed_count + b2.failed_count
              ≤ (get_records_by_ids tableC5 batchC5.record_ids).length
          ∧ b2.status = BatchStatus.completed) :=
  progress_deltas_conserved {} tableC5 (fun i => !(i == 11)) 7 storeC5 batchC5 "w1"
    batchC5 (by decide) rfl rfl rfl rfl rfl

/-- Fixture: a MySQL row whose parse_content is whitespace-only (truthy in
Python, but stripped to empty by process_record). -/
def wsRow : MySQLRow := { id := 10, member_code := "m", parse_content := some " " }

/-- Fixture: a claimed one-record batch over wsRow's id. -/
def batchWS : IngestionBatch :=
  { id := 1, job_id := 0, batch_number := 0, start_id := 10, end_id := 10,
    record_ids := [10], status := BatchStatus.processing,
    processed_count := 0, failed_count := 0, retry_count := 0,
    worker_id := some "w1", claimed_at := some 3, updated_at := 3 }

/-- Fixture: a store containing only batchWS. -/
def storeWS : MStore := { jobs := [], batches := [batchWS] }

/-- Counterexample to C4: a record whose payload is whitespace-only (hence
unusable — the worker skips ingesting it and logs "empty content") is not
dropped by the fetch filter (Python truthiness keeps any non-empty string)
and is counted in the failed delta: the batch's reported failed deltas sum
to 1, not 0 as the claim requires. -/
theorem empty_payload_counterexample :
    (process_batch {} [wsRow] (fun _ => false) (fun _ => true) 9
        storeWS batchWS "w1").toOption.map (fun p => (p.2.map Prod.snd).sum) = some 1
    ∧ ¬ ((process_batch {} [wsRow] (fun _ => false) (fun _ => true) 9
        storeWS batchWS "w1").toOption.map (fun p => (p.2.map Prod.snd).sum) = some 0)
    ∧ wsRow.parse_content.getD "" ≠ ""
    ∧ pyStrip (wsRow.parse_content.getD "") = "" := by
  refine ⟨by decide, by decide, by decide, by decide⟩

/-- C4 (amended) — Records whose payload is NULL or the empty string are
dropped by the fetch (every fetched record has a non-empty payload), so
they are counted as neither processed nor failed; but a record whose
payload is non-empty yet strips to empty (whitespace-only, hence unusable)
is not dropped: process_record returns false for it and it is counted in
the failed delta.  Neither case aborts the batch: with the shutdown flag
unset and the batch owned, process_batch returns normally. -/
theorem empty_payload_policy
    (table : List MySQLRow) (ids : List Nat) (ingest : Nat → Bool) :
    (∀ rec ∈ get_records_by_ids table ids, rec.parse_content ≠ "")
    ∧ (∀ rec : SummaryRecord, pyStrip rec.parse_content = "" →
        process_record ingest rec = false)
    ∧ (∀ cfg now s batch w b, keyUnique s → getBatch s batch.id = some b →
        b.worker_id = some w → b.status = BatchStatus.processing →
        ∃ s' rep, process_batch cfg table (fun _ => false) ingest now s batch w
          = Except.ok (s', rep)) := by
  refine ⟨?_, ?_, ?_⟩
  · intro rec hrec
    unfold get_records_by_ids at hrec
    by_cases hids : ids.isEmpty
    · rw [if_pos hids] at hrec
      simp at hrec
    · rw [if_neg hids] at hrec
      obtain ⟨row, hrow, hmap⟩ := List.mem_map.mp hrec
      have htruthy : contentTruthy row.parse_content = true :=
        (List.mem_filter.mp hrow).2
      cases hpc : row.parse_content with
      | none => rw [hpc] at htruthy; simp [contentTruthy] at htruthy
      | some str =>
        rw [hpc] at htruthy
        have hstr : str ≠ "" := by
          simpa [contentTruthy] using htruthy
        rw [← hmap]
        simpa [hpc] using hstr
  · intro rec htrim
    unfold process_record
    rw [if_pos (by simp [htrim])]
  · intro cfg now s batch w b hu hb hw hst
    by_cases hempty : (get_records_by_ids table batch.record_ids).isEmpty
    · refine ⟨mark_batch_completed s batch.id w now, [], ?_⟩
      unfold process_batch
      rw [if_pos hempty]
    · obtain ⟨hend, _, _, _, _⟩ :=
        process_loop_conserves batch.id w ingest now
          (get_records_by_ids table batch.record_ids) s b 0 0 0 [] hu hb hw hst
      rcases hX : process_loop batch.id w (fun _ => false) ingest now s
          (get_records_by_ids table batch.record_ids) 0 0 0 [] with ⟨s1, rep1, flag⟩
      rw [hX] at hend
      simp only at hend
      subst hend
      refine ⟨mark_batch_completed s1 batch.id w now, rep1, ?_⟩
      unfold process_batch
      rw [if_neg (by simpa using hempty), hX]

/-- Witness for empty_payload_policy at the whitespace-only fixture: the
fetched record has payload a single space (non-empty), process_record
rejects it, and the batch still completes normally. -/
theorem empty_payload_policy_witness :
    ((get_records_by_ids [wsRow] [10]).all (fun rec => !(rec.parse_content == "")))
    ∧ process_record (fun _ => true)
        { id := 10, member_code := "m", parse_content := " " } = false
    ∧ (∃ s' rep, process_batch {} [wsRow] (fun _ => false) (fun _ => true) 9
        storeWS batchWS "w1" = Except.ok (s', rep)) := by
  obtain ⟨h1, h2, h3⟩ := empty_payload_policy [wsRow] [10] (fun _ => true)
  refine ⟨?_, ?_, ?_⟩
  · rw [List.all_eq_true]
    intro rec hrec
    have := h1 rec hrec
    simpa using this
  · exact h2 { id := 10, member_code := "m", parse_content := " " } (by decide)
  · exact h3 {} 9 storeWS batchWS "w1" batchWS (by decide) rfl rfl rfl

theorem pickMinBatch_eq_none {l : List IngestionBatch} :
    pickMinBatch l = none ↔ l = [] := by
  cases l with
  | nil => simp [pickMinBatch]
  | cons x xs =>
    simp only [pickMinBatch]
    cases pickMinBatch xs with
    | none => simp
    | some c =>
      by_cases h : x.batch_number ≤ c.batch_number <;> simp [h]

theorem pickMinBatch_mem {l : List IngestionBatch} :
    ∀ {b : IngestionBatch}, pickMinBatch l = some b → b ∈ l := by
  induction l with
  | nil => intro b h; simp [pickMinBatch] at h
  | cons x xs ih =>
    intro b h
    simp only [pickMinBatch] at h
    cases hxs : pickMinBatch xs with
    | none =>
      simp only [hxs] at h
      simp at h
      simp [h]
    | some c =>
      simp only [hxs] at h
      by_cases hle : x.batch_number ≤ c.batch_number
      · rw [if_pos hle] at h
        simp at h
        simp [h]
      · rw [if_neg hle] at h
        simp at h
        subst h
        exact List.mem_cons_of_mem x (ih hxs)

theorem pickMinBatch_min {l : List IngestionBatch} :
    ∀ {b : IngestionBatch}, pickMinBatch l = some b →
      ∀ c ∈ l, b.batch_number ≤ c.batch_number := by
  induction l with
  | nil => intro b h; simp [pickMinBatch] at h
  | cons x xs ih =>
    intro b h c hc
    simp only [pickMinBatch] at h
    cases hxs : pickMinBatch xs with
    | none =>
      have hxsnil : xs = [] := pickMinBatch_eq_none.mp hxs
      subst hxsnil
      simp only [hxs] at h
      simp at h
      subst h
      simp at hc
      subst hc
      exact Nat.le_refl _
    | some m =>
      simp only [hxs] at h
      have hmmin : ∀ d ∈ xs, m.batch_number ≤ d.batch_number := ih hxs
      rcases List.mem_cons.mp hc with hcx | hcxs
      · rw [hcx]
        by_cases hle : x.batch_number ≤ m.batch_number
        · rw [if_pos hle] at h
          simp at h
          subst h
          exact Nat.le_refl _
        · rw [if_neg hle] at h
          simp at h
          subst h
          omega
      · have hd := hmmin c hcxs
        by_cases hle : x.batch_number ≤ m.batch_number
        · rw [if_pos hle] at h
          simp at h
          subst h
          omega
        · rw [if_neg hle] at h
          simp at h
          subst h
          exact hd

/-- With unique keys, a member row is the row its key looks up. -/
theorem find?_id_of_mem {l : List IngestionBatch} {b : IngestionBatch}
    (hu : (l.map (fun x => x.id)).Nodup) (hb : b ∈ l) :
    l.find? (fun x => x.id == b.id) = some b := by
  induction l with
  | nil => simp at hb
  | cons x xs ih =>
    rw [List.map_cons, List.nodup_cons] at hu
    rcases List.mem_cons.mp hb with hbx | hbxs
    · subst hbx
      rw [List.find?_cons_of_pos _ (by simp)]
    · have hxid : (x.id == b.id) = false := by
        have : x.id ≠ b.id := by
          intro hcontra
          apply hu.1
          rw [hcontra]
          exact List.mem_map_of_mem _ hbxs
        simp [this]
      rw [List.find?_cons_of_neg _ (by simp [hxid])]
      exact ih hu.2 hbxs

theorem getBatch_of_mem {s : MStore} {b : IngestionBatch}
    (hu : keyUnique s) (hb : b ∈ s.batches) : getBatch s b.id = some b :=
  find?_id_of_mem hu hb

/-- Rewriting the unique row with key b.id by a row falsifying p removes
exactly one p-positive row from the count. -/
theorem countP_updateWhere_id {b b' : IngestionBatch}
    (p : IngestionBatch → Bool) (hpb : p b = true) (hpb' : p b' = false) :
    ∀ {l : List IngestionBatch}, (l.map (fun x => x.id)).Nodup → b ∈ l →
      (updateWhere (fun x => x.id == b.id) (fun _ => b') l).countP p
        = l.countP p - 1 := by
  intro l
  induction l with
  | nil => intro _ hmem; simp at hmem
  | cons x xs ih =>
    intro hnd hmem
    rw [List.map_cons, List.nodup_cons] at hnd
    rcases List.mem_cons.mp hmem with hbx | hbxs
    · subst hbx
      have hxs : updateWhere (fun y => y.id == b.id) (fun _ => b') xs = xs := by
        apply updateWhere_of_not_mem
        intro y hy
        have hyne : y.id ≠ b.id := by
          intro hcontra
          apply hnd.1
          rw [← hcontra]
          exact List.mem_map_of_mem _ hy
        simp [hyne]
      show ((b :: xs).map fun y => if (y.id == b.id) = true then b' else y).countP p
        = (b :: xs).countP p - 1
      rw [List.map_cons]
      rw [if_pos (show (b.id == b.id) = true by simp)]
      have hxs2 : xs.map (fun y => if (y.id == b.id) = true then b' else y) = xs := by
        simpa [updateWhere] using hxs
      rw [hxs2]
      rw [List.countP_cons_of_neg p xs (by simp [hpb']),
        List.countP_cons_of_pos p xs hpb]
      omega
    · have hbxid : (x.id == b.id) = false := by
        have : x.id ≠ b.id := by
          intro hcontra
          apply hnd.1
          rw [hcontra]
          exact List.mem_map_of_mem _ hbxs
        simp [this]
      have hrec := ih hnd.2 hbxs
      have hpos : 0 < xs.countP p := List.countP_pos_iff.mpr ⟨b, hbxs, hpb⟩
      show ((x :: xs).map fun y => if (y.id == b.id) = true then b' else y).countP p
        = (x :: xs).countP p - 1
      rw [List.map_cons, hbxid]
      simp only [Bool.false_eq_true, if_false]
      rw [List.countP_cons p x, List.countP_cons p x]
      have hrec2 : (xs.map fun y => if (y.id == b.id) = true then b' else y).countP p
          = xs.countP p - 1 := by
        simpa [updateWhere] using hrec
      rw [hrec2]
      omega

/-- The number of pending batches of a job. -/
def pendingCount (s : MStore) (jobId : Nat) : Nat :=
  s.batches.countP (pendingFor jobId)

theorem claim_next_batch_none {s : MStore} {jobId : Nat} (w : String) (now : Nat)
    (h : pendingCount s jobId = 0) :
    claim_next_batch s jobId w now = (s, none) := by
  apply claim_next_batch_of_no_pending
  intro b hb
  have := List.countP_eq_zero.mp h b hb
  simpa using this

theorem claimRow_not_pending (w : String) (now : Nat) (b : IngestionBatch)
    (jobId : Nat) : pendingFor jobId (claimRow w now b) = false := by
  simp [pendingFor, claimRow]

/-- A claim against a job with at least one pending batch succeeds: it
returns the lowest-numbered pending batch rewritten to processing and
stamped, decrements the pending count by one, and touches no other row. -/
theorem claim_next_batch_success {s : MStore} {jobId : Nat} (w : String) (now : Nat)
    (hu : keyUnique s) (hp : 0 < pendingCount s jobId) :
    ∃ b, b ∈ s.batches ∧ pendingFor jobId b = true
      ∧ (∀ c ∈ s.batches, pendingFor jobId c = true →
          b.batch_number ≤ c.batch_number)
      ∧ claim_next_batch s jobId w now =
          ({ s with
              batches := updateWhere (fun x => x.id == b.id)
                (fun _ => claimRow w now b) s.batches },
           some (claimRow w now b))
      ∧ getBatch s b.id = some b
      ∧ getBatch (claim_next_batch s jobId w now).1 b.id = some (claimRow w now b)
      ∧ (∀ k2, k2 ≠ b.id →
          getBatch (claim_next_batch s jobId w now).1 k2 = getBatch s k2)
      ∧ keyUnique (claim_next_batch s jobId w now).1
      ∧ pendingCount (claim_next_batch s jobId w now).1 jobId
          = pendingCount s jobId - 1 := by
  have hfilter : s.batches.filter
      (fun b => b.job_id == jobId && b.status == BatchStatus.pending)
      = s.batches.filter (pendingFor jobId) := rfl
  have hne : s.batches.filter (pendingFor jobId) ≠ [] := by
    intro hnil
    rw [pendingCount, List.countP_eq_length_filter, hnil] at hp
    simp at hp
  obtain ⟨b, hpick⟩ :
      ∃ b, pickMinBatch (s.batches.filter (pendingFor jobId)) = some b := by
    cases hcase : pickMinBatch (s.batches.filter (pendingFor jobId)) with
    | none => exact absurd (pickMinBatch_eq_none.mp hcase) hne
    | some b => exact ⟨b, rfl⟩
  have hbmem' := pickMinBatch_mem hpick
  have hbmem : b ∈ s.batches := (List.mem_filter.mp hbmem').1
  have hbpend : pendingFor jobId b = true := (List.mem_filter.mp hbmem').2
  have heq : claim_next_batch s jobId w now =
      ({ s with
          batches := updateWhere (fun x => x.id == b.id)
            (fun _ => claimRow w now b) s.batches },
       some (claimRow w now b)) := by
    unfold claim_next_batch
    rw [show s.batches.filter
        (fun b => b.job_id == jobId && b.status == BatchStatus.pending)
        = s.batches.filter (pendingFor jobId) from rfl, hpick]
  have hgetb : getBatch s b.id = some b := getBatch_of_mem hu hbmem
  have hfid : ∀ x : IngestionBatch, (x.id == b.id) = true →
      (claimRow w now b).id = x.id := by
    intro x hx
    have : x.id = b.id := by simpa using hx
    simp [claimRow, this]
  refine ⟨b, hbmem, hbpend, ?_, heq, hgetb, ?_, ?_, ?_, ?_⟩
  · intro c hc hcp
    exact pickMinBatch_min hpick c (List.mem_filter.mpr ⟨hc, hcp⟩)
  · rw [heq]
    show (updateWhere (fun x => x.id == b.id) (fun _ => claimRow w now b)
        s.batches).find? (fun x => x.id == b.id) = _
    rw [find?_key_updateWhere (fun x => x.id) hfid s.batches b.id]
    rw [show s.batches.find? (fun x => x.id == b.id) = some b from hgetb]
    simp only [Option.map_some']
    rw [if_pos (show (b.id == b.id) = true by simp)]
  · intro k2 hk2
    rw [heq]
    show (updateWhere (fun x => x.id == b.id) (fun _ => claimRow w now b)
        s.batches).find? (fun x => x.id == k2) = getBatch s k2
    rw [find?_key_updateWhere (fun x => x.id) hfid s.batches k2]
    unfold getBatch
    cases hfind : s.batches.find? (fun x => x.id == k2) with
    | none => rfl
    | some c =>
      have hcid : c.id = k2 := by
        have := List.find?_some hfind
        simpa using this
      simp [hcid, hk2]
  · rw [heq]
    show ((updateWhere (fun x => x.id == b.id) (fun _ => claimRow w now b)
        s.batches).map (fun x => x.id)).Nodup
    rw [map_key_updateWhere (fun x => x.id) hfid s.batches]
    exact hu
  · rw [heq]
    show (updateWhere (fun x => x.id == b.id) (fun _ => claimRow w now b)
        s.batches).countP (pendingFor jobId) = pendingCount s jobId - 1
    exact countP_updateWhere_id (pendingFor jobId) hbpend
      (claimRow_not_pending w now b jobId) hu hbmem

/-- A claim never touches a processing row. -/
theorem claim_preserves_processing {s : MStore} {jobId : Nat} (w : String)
    (now : Nat) {k : Nat} {c : IngestionBatch}
    (hu : keyUnique s) (hk : getBatch s k = some c)
    (hst : c.status = BatchStatus.processing) :
    getBatch (claim_next_batch s jobId w now).1 k = some c := by
  rcases Nat.eq_zero_or_pos (pendingCount s jobId) with hz | hpos
  · rw [claim_next_batch_none w now hz]
    exact hk
  · obtain ⟨b, hbmem, hbpend, _, _, hgetb, _, hoth, _, _⟩ :=
      claim_next_batch_success w now hu hpos
    by_cases hkb : k = b.id
    · exfalso
      rw [hkb, hgetb] at hk
      have : b = c := by injection hk
      rw [← this] at hst
      simp [pendingFor, hst] at hbpend
    · rw [hoth k hkb]
      exact hk

/-- A linearized sequence of claim calls (the workers list gives the
order in which the atomic claims hit the store). -/
def run_claims (jobId : Nat) (now : Nat) : MStore → List String →
    MStore × List (Option IngestionBatch)
  | s, [] => (s, [])
  | s, w :: ws =>
    ((run_claims jobId now (claim_next_batch s jobId w now).1 ws).1,
     (claim_next_batch s jobId w now).2 ::
       (run_claims jobId now (claim_next_batch s jobId w now).1 ws).2)

theorem run_claims_invariant (jobId now : Nat) :
    ∀ (ws : List String) (s : MStore), keyUnique s →
      keyUnique (run_claims jobId now s ws).1
      ∧ (((run_claims jobId now s ws).2.reduceOption.map (fun r => r.id)).Nodup)
      ∧ (∀ r ∈ (run_claims jobId now s ws).2.reduceOption,
          ∃ c, getBatch s r.id = some c ∧ pendingFor jobId c = true)
      ∧ (∀ k c, getBatch s k = some c → c.status = BatchStatus.processing →
          getBatch (run_claims jobId now s ws).1 k = some c)
      ∧ (run_claims jobId now s ws).2.reduceOption.length
          = min ws.length (pendingCount s jobId) := by
  intro ws
  induction ws with
  | nil =>
    intro s hu
    refine ⟨hu, by simp [run_claims], by simp [run_claims], ?_, by simp [run_claims]⟩
    intro k c hk _
    simpa [run_claims] using hk
  | cons w ws ih =>
    intro s hu
    rcases Nat.eq_zero_or_pos (pendingCount s jobId) with hz | hpos
    · have hclaim := claim_next_batch_none w now hz
      obtain ⟨ihu, ihnd, ihpend, ihproc, ihlen⟩ := ih s hu
      have hrw : run_claims jobId now s (w :: ws)
          = ((run_claims jobId now s ws).1,
             none :: (run_claims jobId now s ws).2) := by
        show ((run_claims jobId now (claim_next_batch s jobId w now).1 ws).1,
          (claim_next_batch s jobId w now).2 ::
            (run_claims jobId now (claim_next_batch s jobId w now).1 ws).2) = _
        rw [hclaim]
      rw [hrw]
      refine ⟨ihu, by simpa using ihnd, by simpa using ihpend,
        by simpa using ihproc, ?_⟩
      simp only [List.reduceOption_cons_of_none]
      rw [ihlen, hz]
      simp
    · obtain ⟨b, hbmem, hbpend, hmin, heq, hgetb, hgetb1, hoth, hku1, hcount⟩ :=
        claim_next_batch_success w now hu hpos
      obtain ⟨ihu, ihnd, ihpend, ihproc, ihlen⟩ :=
        ih (claim_next_batch s jobId w now).1 hku1
      have hrw : run_claims jobId now s (w :: ws)
          = ((run_claims jobId now (claim_next_batch s jobId w now).1 ws).1,
             some (claimRow w now b) ::
               (run_claims jobId now (claim_next_batch s jobId w now).1 ws).2) := by
        show ((run_claims jobId now (claim_next_batch s jobId w now).1 ws).1,
          (claim_next_batch s jobId w now).2 ::
            (run_claims jobId now (claim_next_batch s jobId w now).1 ws).2) = _
        rw [show (claim_next_batch s jobId w now).2 = some (claimRow w now b) by
          rw [heq]]
      have hprocessing1 : (claimRow w now b).status = BatchStatus.processing := by
        simp [claimRow]
      have htail_not_b : ∀ r ∈ (run_claims jobId now
          (claim_next_batch s jobId w now).1 ws).2.reduceOption, r.id ≠ b.id := by
        intro r hr hrb
        obtain ⟨c, hc, hcpend⟩ := ihpend r hr
        rw [hrb] at hc
        rw [hgetb1] at hc
        have : claimRow w now b = c := by injection hc
        rw [← this] at hcpend
        simp [claimRow, pendingFor] at hcpend
      rw [hrw]
      refine ⟨ihu, ?_, ?_, ?_, ?_⟩
      · simp only [List.reduceOption_cons_of_some, List.map_cons]
        rw [List.nodup_cons]
        constructor
        · intro hmem
          obtain ⟨r, hr, hrid⟩ := List.mem_map.mp hmem
          exact htail_not_b r hr (by simpa [claimRow] using hrid)
        · exact ihnd
      · intro r hr
        simp only [List.reduceOption_cons_of_some] at hr
        rcases List.mem_cons.mp hr with hrhead | hrtail
        · subst hrhead
          exact ⟨b, by simpa [claimRow] using hgetb, hbpend⟩
        · obtain ⟨c, hc, hcpend⟩ := ihpend r hrtail
          refine ⟨c, ?_, hcpend⟩
          rw [← hoth r.id (htail_not_b r hrtail)]
          exact hc
      · intro k c hk hcst
        apply ihproc
        · exact claim_preserves_processing w now hu hk hcst
        · exact hcst
      · simp only [List.reduceOption_cons_of_some, List.length_cons]
        rw [ihlen, hcount]
        omega

/-- C1 — Single-call contract of ClaimNextBatch (returns None exactly when
the job has no pending batch; otherwise atomically moves the
lowest-batch_number pending batch to processing, stamping worker_id and
claimed_at, and returns it), and the no-double-claim property: for any
linearization of any number of concurrent claim calls, the successfully
returned batches have pairwise distinct ids, at most B = pendingCount
claims succeed (exactly min(calls, B)), and with B or more calls every
pending batch is claimed exactly once. -/
theorem claim_no_double_claim
    (s : MStore) (jobId : Nat) (now : Nat) (ws : List String)
    (hu : keyUnique s) :
    (∀ w, (pendingCount s jobId = 0 → claim_next_batch s jobId w now = (s, none))
      ∧ (0 < pendingCount s jobId →
          ∃ b, b ∈ s.batches ∧ pendingFor jobId b = true
            ∧ (∀ c ∈ s.batches, pendingFor jobId c = true →
                b.batch_number ≤ c.batch_number)
            ∧ (claim_next_batch s jobId w now).2 = some (claimRow w now b)
            ∧ (claimRow w now b).status = BatchStatus.processing
            ∧ (claimRow w now b).worker_id = some w
            ∧ (claimRow w now b).claimed_at = some now
            ∧ getBatch (claim_next_batch s jobId w now).1 b.id
                = some (claimRow w now b)))
    ∧ ((run_claims jobId now s ws).2.reduceOption.map (fun r => r.id)).Nodup
    ∧ (run_claims jobId now s ws).2.reduceOption.length
        = min ws.length (pendingCount s jobId)
    ∧ (pendingCount s jobId ≤ ws.length →
        ∀ c ∈ s.batches, pendingFor jobId c = true →
          c.id ∈ (run_claims jobId now s ws).2.reduceOption.map (fun r => r.id)) := by
  obtain ⟨hku, hnd, hpend, hproc, hlen⟩ := run_claims_invariant jobId now ws s hu
  refine ⟨?_, hnd, hlen, ?_⟩
  · intro w
    refine ⟨fun hz => claim_next_batch_none w now hz, fun hpos => ?_⟩
    obtain ⟨b, hbmem, hbpend, hmin, heq, hgetb, hgetb1, hoth, hku1, hcount⟩ :=
      claim_next_batch_success w now hu hpos
    refine ⟨b, hbmem, hbpend, hmin, by rw [heq], by simp [claimRow],
      by simp [claimRow], by simp [claimRow], hgetb1⟩
  · intro hge c hc hcp
    have hlenS : ((run_claims jobId now s ws).2.reduceOption.map
        (fun r => r.id)).length = pendingCount s jobId := by
      rw [List.length_map, hlen]
      omega
    have hsub : ∀ i ∈ (run_claims jobId now s ws).2.reduceOption.map
        (fun r => r.id),
        i ∈ (s.batches.filter (pendingFor jobId)).map (fun x => x.id) := by
      intro i hi
      obtain ⟨r, hr, hrid⟩ := List.mem_map.mp hi
      obtain ⟨c2, hc2, hc2pend⟩ := hpend r hr
      obtain ⟨hc2mem, hc2id⟩ := getBatch_mem hc2
      have hc2filter : c2 ∈ s.batches.filter (pendingFor jobId) :=
        List.mem_filter.mpr ⟨hc2mem, hc2pend⟩
      rw [← hrid, ← hc2id]
      exact List.mem_map_of_mem _ hc2filter
    have hndP : ((s.batches.filter (pendingFor jobId)).map
        (fun x => x.id)).Nodup :=
      List.Nodup.sublist (List.Sublist.map _ (List.filter_sublist s.batches)) hu
    have hlenP : ((s.batches.filter (pendingFor jobId)).map
        (fun x => x.id)).length = pendingCount s jobId := by
      rw [List.length_map, pendingCount, List.countP_eq_length_filter]
    have hfinsub : ((run_claims jobId now s ws).2.reduceOption.map
        (fun r => r.id)).toFinset ⊆
        ((s.batches.filter (pendingFor jobId)).map (fun x => x.id)).toFinset := by
      intro i hi
      exact List.mem_toFinset.mpr (hsub i (List.mem_toFinset.mp hi))
    have hfineq : ((run_claims jobId now s ws).2.reduceOption.map
        (fun r => r.id)).toFinset =
        ((s.batches.filter (pendingFor jobId)).map (fun x => x.id)).toFinset := by
      apply Finset.eq_of_subset_of_card_le hfinsub
      rw [List.toFinset_card_of_nodup hnd, List.toFinset_card_of_nodup hndP]
      rw [hlenS, hlenP]
    have hcidP : c.id ∈ (s.batches.filter (pendingFor jobId)).map
        (fun x => x.id) :=
      List.mem_map_of_mem _ (List.mem_filter.mpr ⟨hc, hcp⟩)
    have := List.mem_toFinset.mpr hcidP
    rw [← hfineq] at this
    exact List.mem_toFinset.mp this

/-- Fixture: a job (id 0) with three pending batches, ids 1-3, batch
numbers 0-2. -/
def storeC1 : MStore :=
  { jobs := [{ id := 0, status := JobStatus.running, total_batches := 3,
               total_records := 9, updated_at := 0 }]
    batches := [
      { id := 1, job_id := 0, batch_number := 0, start_id := 10, end_id := 12,
        record_ids := [10, 11, 12], status := BatchStatus.pending, updated_at := 0 },
      { id := 2, job_id := 0, batch_number := 1, start_id := 13, end_id := 15,
        record_ids := [13, 14, 15], status := BatchStatus.pending, updated_at := 0 },
      { id := 3, job_id := 0, batch_number := 2, start_id := 16, end_id := 18,
        record_ids := [16, 17, 18], status := BatchStatus.pending, updated_at := 0 }]
    next_job_id := 1
    next_batch_id := 4 }

/-- Witness for claim_no_double_claim: four claim calls against three
pending batches yield pairwise distinct claimed batch ids and exactly
min 4 3 = 3 successes. -/
theorem claim_no_double_claim_witness :
    ((run_claims 0 5 storeC1 ["wA", "wB", "wC", "wD"]).2.reduceOption.map
        (fun r => r.id)).Nodup
    ∧ (run_claims 0 5 storeC1 ["wA", "wB", "wC", "wD"]).2.reduceOption.length
        = min (["wA", "wB", "wC", "wD"] : List String).length
            (pendingCount storeC1 0) :=
  ⟨(claim_no_double_claim storeC1 0 5 ["wA", "wB", "wC", "wD"] (by decide)).2.1,
   (claim_no_double_claim storeC1 0 5 ["wA", "wB", "wC", "wD"] (by decide)).2.2.1⟩

theorem getJob_update_job_status (s : MStore) (jobId : Nat) (status : JobStatus)
    (now : Nat) (k : Nat) :
    getJob (update_job_status s jobId status now) k =
      (getJob s k).map (fun j =>
        if (j.id == jobId) then { j with status := status, updated_at := now }
        else j) := by
  have hf1 : ∀ x : IngestionJob, (x.id == jobId) = true →
      ({ x with status := status, updated_at := now } : IngestionJob).id = x.id :=
    fun _ _ => rfl
  show (updateWhere (fun j => j.id == jobId) _ s.jobs).find? (fun j => j.id == k) = _
  rw [find?_key_updateWhere (fun j => j.id) hf1 s.jobs k]
  rfl

theorem getJob_update_job_stats_status (s : MStore) (jobId now k : Nat) :
    (getJob (update_job_stats s jobId now) k).map (fun j => j.status)
      = (getJob s k).map (fun j => j.status) := by
  have hf1 : ∀ x : IngestionJob, (x.id == jobId) = true →
      ({ x with
          completed_batches := (get_job_stats s jobId).completed_batches
          failed_batches := (get_job_stats s jobId).failed_batches
          processed_records := (get_job_stats s jobId).processed_records
          failed_records := (get_job_stats s jobId).failed_records
          updated_at := now } : IngestionJob).id = x.id :=
    fun _ _ => rfl
  show ((updateWhere (fun j => j.id == jobId) _ s.jobs).find?
      (fun j => j.id == k)).map (fun j => j.status) = _
  rw [find?_key_updateWhere (fun j => j.id) hf1 s.jobs k]
  unfold getJob
  cases s.jobs.find? (fun j => j.id == k) with
  | none => rfl
  | some j =>
    simp only [Option.map_some']
    by_cases hp : (j.id == jobId) = true <;> simp [hp]

/-- The stats aggregate only reads batch rows, which update_job_stats
leaves untouched. -/
theorem get_job_stats_update_job_stats (s : MStore) (jobId now k : Nat) :
    get_job_stats (update_job_stats s jobId now) k = get_job_stats s k := rfl

/-- Fixture: settings for the 25-record happy-path scenario. -/
def cfgC6 : MigrationSettings := { batch_size := 10, max_retries := 3 }

/-- Fixture: the 25 record ids 1..25. -/
def idsC6 : List Nat := (List.range 25).map (fun i => i + 1)

/-- Fixture: the MySQL rows for ids 1..25, all with usable content. -/
def tableC6 : List MySQLRow :=
  idsC6.map (fun i => { id := i, member_code := "m", parse_content := some "x" })

/-- Fixture: the store after planning the 25-record job (3 batches of
10, 10, 5; job id 0 running). -/
def storeC6p : MStore :=
  (create_new_job cfgC6 idsC6 0 { jobs := [], batches := [] }).1

/-- Fixture: the store after a single worker drains the job. -/
def storeC6w : MStore :=
  (worker_run_loop cfgC6 tableC6 (fun _ => true) 0 "w0" 1 20 storeC6p 0).1

/-- Fixture: the monitoring loop run against the drained store. -/
def monC6 : MStore × Bool := monitor_loop 0 2 3 storeC6w

/-- C6 — One monitoring iteration: when the job's stats report zero pending
and zero processing batches it sets the job status to completed when no
batch failed and to failed otherwise and signals loop exit; when any batch
is pending or processing it assigns no status at all (the job's status is
untouched) and the loop continues.  In particular the 25-record happy path
(batch_size 10, three batches 10/10/5, one worker draining them) ends with
Job.status completed, processed_records 25, failed_records 0. -/
theorem monitor_terminal_status (s : MStore) (jobId now : Nat) :
    ((get_job_stats s jobId).pending_batches = 0 →
      (get_job_stats s jobId).processing_batches = 0 →
        (monitor_iteration s jobId now).2 = true
        ∧ ((getJob (monitor_iteration s jobId now).1 jobId).map (fun j => j.status)
            = (getJob s jobId).map (fun _ =>
                if (get_job_stats s jobId).failed_batches = 0 then
                  JobStatus.completed
                else JobStatus.failed)))
    ∧ (¬ ((get_job_stats s jobId).pending_batches = 0
          ∧ (get_job_stats s jobId).processing_batches = 0) →
        (monitor_iteration s jobId now).2 = false
        ∧ ((getJob (monitor_iteration s jobId now).1 jobId).map (fun j => j.status)
            = (getJob s jobId).map (fun j => j.status)))
    ∧ ((getJob monC6.1 0).map (fun j => j.status) = some JobStatus.completed
        ∧ (getJob monC6.1 0).map (fun j => j.processed_records) = some 25
        ∧ (getJob monC6.1 0).map (fun j => j.failed_records) = some 0
        ∧ monC6.2 = true) := by
  have hstats : get_job_stats (update_job_stats s jobId now) jobId
      = get_job_stats s jobId := rfl
  refine ⟨?_, ?_, by decide, by decide, by decide, by decide⟩
  · intro hp hpr
    have hcond : ((get_job_stats (update_job_stats s jobId now) jobId).pending_batches
        == 0 && (get_job_stats (update_job_stats s jobId now) jobId).processing_batches
        == 0) = true := by
      rw [hstats]
      simp [hp, hpr]
    constructor
    · unfold monitor_iteration
      rw [if_pos hcond]
    · unfold monitor_iteration
      rw [if_pos hcond]
      simp only
      rw [getJob_update_job_status]
      have hst2 := getJob_update_job_stats_status s jobId now jobId
      cases hjs : getJob (update_job_stats s jobId now) jobId with
      | none =>
        rw [hjs] at hst2
        cases hjo : getJob s jobId with
        | none => simp
        | some j => rw [hjo] at hst2; simp at hst2
      | some j =>
        rw [hjs] at hst2
        cases hjo : getJob s jobId with
        | none => rw [hjo] at hst2; simp at hst2
        | some j0 =>
          have hjid : j.id = jobId := by
            have := List.find?_some hjs
            simpa using this
          simp only [Option.map_some']
          rw [if_pos (by simp [hjid])]
          rw [hstats]
          by_cases hf : (get_job_stats s jobId).failed_batches = 0 <;> simp [hf]
  · intro hnot
    have hcond : ((get_job_stats (update_job_stats s jobId now) jobId).pending_batches
        == 0 && (get_job_stats (update_job_stats s jobId now) jobId).processing_batches
        == 0) = false := by
      rw [hstats]
      rcases Decidable.not_and_iff_or_not.mp hnot with h | h
      · simp [h]
      · simp [h]
    constructor
    · unfold monitor_iteration
      rw [if_neg (by simp [hcond])]
    · unfold monitor_iteration
      rw [if_neg (by simp [hcond])]
      simp only
      exact getJob_update_job_stats_status s jobId now jobId

/-- Fixture: job 0 with its single batch completed. -/
def storeMonDone : MStore :=
  { jobs := [{ id := 0, status := JobStatus.running, total_batches := 1,
               total_records := 2, updated_at := 0 }]
    batches := [{ id := 1, job_id := 0, batch_number := 0, start_id := 10,
                  end_id := 11, record_ids := [10, 11],
                  status := BatchStatus.completed, processed_count := 2,
                  updated_at := 1 }]
    next_job_id := 1
    next_batch_id := 2 }

/-- Witness for monitor_terminal_status: a drained job is marked completed
and the loop exits; a job with pending batches keeps its status and the
loop continues. -/
theorem monitor_terminal_status_witness :
    ((monitor_iteration storeMonDone 0 9).2 = true
      ∧ ((getJob (monitor_iteration storeMonDone 0 9).1 0).map (fun j => j.status)
          = (getJob storeMonDone 0).map (fun _ =>
              if (get_job_stats storeMonDone 0).failed_batches = 0 then
                JobStatus.completed
              else JobStatus.failed)))
    ∧ ((monitor_iteration storeC1 0 9).2 = false
      ∧ ((getJob (monitor_iteration storeC1 0 9).1 0).map (fun j => j.status)
          = (getJob storeC1 0).map (fun j => j.status))) :=
  ⟨(monitor_terminal_status storeMonDone 0 9).1 (by decide) (by decide),
   (monitor_terminal_status storeC1 0 9).2.1 (by decide)⟩

/-- C9 — Planning against a source with zero eligible records is fatal in
a caller-visible way: CreateBatches returns zero batches (no batch row is
inserted) and create_new_job aborts via sys.exit(1) — modelled as the
error value 1, the non-zero process exit status — after the job row was
inserted, so the job is left Pending and is never set Running. -/
theorem planning_zero_records (cfg : MigrationSettings) (now : Nat) (s : MStore)
    (hfresh : ∀ j ∈ s.jobs, j.id < s.next_job_id) :
    (create_new_job cfg [] now s).2 = Except.error 1
    ∧ (getJob (create_new_job cfg [] now s).1 s.next_job_id).map (fun j => j.status)
        = some JobStatus.pending
    ∧ (create_new_job cfg [] now s).1.batches = s.batches := by
  have hnone : s.jobs.find? (fun j => j.id == s.next_job_id) = none := by
    rw [List.find?_eq_none]
    intro j hj
    have hlt := hfresh j hj
    simp only [beq_iff_eq]
    omega
  refine ⟨rfl, ?_, by simp [create_new_job, create_job,
    create_batches_from_summary_ids, chunkList, chunkAux]⟩
  show ((s.jobs ++ [(create_job s 0 0 now).2]).find?
      (fun j => j.id == s.next_job_id)).map (fun j => j.status) = _
  rw [List.find?_append, hnone]
  simp [create_job]

/-- Witness for planning_zero_records at the empty store. -/
theorem planning_zero_records_witness :
    (create_new_job {} [] 3 { jobs := [], batches := [] }).2 = Except.error 1
    ∧ (getJob (create_new_job {} [] 3 { jobs := [], batches := [] }).1
        (MStore.next_job_id { jobs := [], batches := [] })).map (fun j => j.status)
        = some JobStatus.pending
    ∧ (create_new_job {} [] 3 { jobs := [], batches := [] }).1.batches
        = MStore.batches { jobs := [], batches := [] } :=
  planning_zero_records {} 3 { jobs := [], batches := [] }
    (by intro j hj; simp at hj)

theorem getJob_id_of_some {s : MStore} {k : Nat} {j : IngestionJob}
    (h : getJob s k = some j) : j.id = k := by
  have := List.find?_some h
  simpa using this

theorem getJob_update_status_other (s : MStore) (jobId : Nat) (st : JobStatus)
    (now k : Nat) (hk : k ≠ jobId) :
    getJob (update_job_status s jobId st now) k = getJob s k := by
  rw [getJob_update_job_status]
  cases hfind : getJob s k with
  | none => rfl
  | some j =>
    have hjid : j.id = k := getJob_id_of_some hfind
    simp [hjid, hk]

/-- Marking every job of the list failed: any job of the list that is
present in the store ends with status failed, and a status already failed
stays failed. -/
theorem foldl_mark_failed_status (now : Nat) :
    ∀ (l : List IngestionJob) (acc : MStore) (k : Nat),
      ((getJob acc k).map (fun x => x.status) = some JobStatus.failed
        ∨ ((∃ j ∈ l, j.id = k) ∧ (getJob acc k).isSome)) →
      (getJob (l.foldl
          (fun a j2 => update_job_status a j2.id JobStatus.failed now) acc) k).map
        (fun x => x.status) = some JobStatus.failed := by
  intro l
  induction l with
  | nil =>
    intro acc k h
    rcases h with h | ⟨⟨j, hj, _⟩, _⟩
    · simpa using h
    · simp at hj
  | cons x xs ih =>
    intro acc k h
    simp only [List.foldl_cons]
    apply ih
    rcases h with hfail | ⟨⟨j, hj, hjk⟩, hsome⟩
    · left
      rw [getJob_update_job_status]
      cases hfind : getJob acc k with
      | none => rw [hfind] at hfail; simp at hfail
      | some c =>
        rw [hfind] at hfail
        simp only [Option.map_some'] at hfail ⊢
        by_cases hc : (c.id == x.id) = true
        · simp [hc]
        · simp only [hc, Bool.false_eq_true, if_false]
          exact hfail
    · rcases List.mem_cons.mp hj with hjx | hjxs
      · left
        subst hjx
        rw [getJob_update_job_status]
        cases hfind : getJob acc k with
        | none => rw [hfind] at hsome; simp at hsome
        | some c =>
          have hcid : c.id = k := getJob_id_of_some hfind
          simp [hcid, ← hjk]
      · right
        refine ⟨⟨j, hjxs, hjk⟩, ?_⟩
        rw [getJob_update_job_status]
        cases hfind : getJob acc k with
        | none => rw [hfind] at hsome; simp at hsome
        | some c => simp

/-- The fold marking jobs failed does not touch the id sequence. -/
theorem foldl_mark_failed_next_job_id (now : Nat) :
    ∀ (l : List IngestionJob) (acc : MStore),
      (l.foldl (fun a j2 => update_job_status a j2.id JobStatus.failed now)
        acc).next_job_id = acc.next_job_id := by
  intro l
  induction l with
  | nil => intro acc; rfl
  | cons x xs ih =>
    intro acc
    simp only [List.foldl_cons]
    rw [ih]
    rfl

/-- create_new_job touches only the freshly inserted job row. -/
theorem getJob_create_new_job_other (cfg : MigrationSettings) (ids : List Nat)
    (now : Nat) (s : MStore) (k : Nat) (hk : k ≠ s.next_job_id) :
    getJob (create_new_job cfg ids now s).1 k = getJob s k := by
  have happend : (s.jobs ++ [(create_job s 0 0 now).2]).find? (fun j => j.id == k)
      = s.jobs.find? (fun j => j.id == k) := by
    rw [List.find?_append]
    cases hpre : s.jobs.find? (fun j => j.id == k) with
    | some c => rfl
    | none =>
      have hJ : ([(create_job s 0 0 now).2].find? (fun j => j.id == k)) = none := by
        simp [create_job, Ne.symm hk]
      rw [hJ]
      rfl
  have hJid : (create_job s 0 0 now).2.id = s.next_job_id := rfl
  unfold create_new_job
  simp only
  by_cases hz : ((create_batches_from_summary_ids (create_job s 0 0 now).1
      (create_job s 0 0 now).2.id cfg.batch_size ids now).2.1 == 0) = true
  · rw [if_pos hz]
    show (s.jobs ++ [(create_job s 0 0 now).2]).find? (fun j => j.id == k)
      = s.jobs.find? (fun j => j.id == k)
    exact happend
  · rw [if_neg hz]
    show getJob (update_job_status _ (create_job s 0 0 now).2.id
      JobStatus.running now) k = getJob s k
    rw [getJob_update_status_other _ _ _ _ _ (by rw [hJid]; exact hk)]
    have hf : ∀ x : IngestionJob, (x.id == (create_job s 0 0 now).2.id) = true →
        ({ x with
            total_batches := (create_batches_from_summary_ids
              (create_job s 0 0 now).1 (create_job s 0 0 now).2.id
              cfg.batch_size ids now).2.2.1
            total_records := (create_batches_from_summary_ids
              (create_job s 0 0 now).1 (create_job s 0 0 now).2.id
              cfg.batch_size ids now).2.1 } : IngestionJob).id = x.id :=
      fun _ _ => rfl
    show (updateWhere (fun j => j.id == (create_job s 0 0 now).2.id) _
        (s.jobs ++ [(create_job s 0 0 now).2])).find? (fun j => j.id == k)
      = getJob s k
    rw [find?_key_updateWhere (fun j => j.id) hf
      (s.jobs ++ [(create_job s 0 0 now).2]) k]
    rw [happend]
    unfold getJob
    cases hfind : s.jobs.find? (fun j => j.id == k) with
    | none => rfl
    | some c =>
      have hcid : c.id = k := by
        have := List.find?_some hfind
        simpa using this
      simp only [Option.map_some']
      rw [if_neg (by rw [hcid, hJid]; simpa using hk)]

/-- C10 — When at least one active (pending or running) job exists and the
resume decision is negative, get_or_create_job sets the status of every
active job to failed before creating the new job; no previously active job
is left pending or running in the resulting store. -/
theorem decline_resume_marks_active_failed
    (cfg : MigrationSettings) (ids : List Nat) (timeout now : Nat) (s : MStore)
    (hactive : s.jobs.filter (fun j => j.status == JobStatus.pending
        || j.status == JobStatus.running) ≠ [])
    (hfresh : ∀ j ∈ s.jobs, j.id < s.next_job_id) :
    ∀ j ∈ s.jobs, (j.status = JobStatus.pending ∨ j.status = JobStatus.running) →
      (getJob (get_or_create_job cfg false ids timeout now s).1 j.id).map
        (fun x => x.status) = some JobStatus.failed := by
  intro j hj hst
  cases hact : s.jobs.filter (fun x => x.status == JobStatus.pending
      || x.status == JobStatus.running) with
  | nil => exact absurd hact hactive
  | cons a rest =>
    have hrun : get_or_create_job cfg false ids timeout now s
        = create_new_job cfg ids now
            ((a :: rest).foldl
              (fun acc j2 => update_job_status acc j2.id JobStatus.failed now) s) := by
      unfold get_or_create_job
      rw [hact]
      rfl
    rw [hrun]
    have hjactive : j ∈ s.jobs.filter (fun x => x.status == JobStatus.pending
        || x.status == JobStatus.running) := by
      apply List.mem_filter.mpr
      refine ⟨hj, ?_⟩
      rcases hst with h | h <;> simp [h]
    rw [hact] at hjactive
    have hjsome : (getJob s j.id).isSome := by
      apply List.find?_isSome.mpr
      exact ⟨j, hj, by simp⟩
    have hfailed : (getJob ((a :: rest).foldl
        (fun acc j2 => update_job_status acc j2.id JobStatus.failed now) s) j.id).map
        (fun x => x.status) = some JobStatus.failed :=
      foldl_mark_failed_status now (a :: rest) s j.id
        (Or.inr ⟨⟨j, hjactive, rfl⟩, hjsome⟩)
    have hnext : ((a :: rest).foldl
        (fun acc j2 => update_job_status acc j2.id JobStatus.failed now)
        s).next_job_id = s.next_job_id :=
      foldl_mark_failed_next_job_id now (a :: rest) s
    have hkne : j.id ≠ ((a :: rest).foldl
        (fun acc j2 => update_job_status acc j2.id JobStatus.failed now)
        s).next_job_id := by
      rw [hnext]
      exact Nat.ne_of_lt (hfresh j hj)
    rw [getJob_create_new_job_other cfg ids now _ j.id hkne]
    exact hfailed

/-- Fixture: a store with a pending job 0, a running job 1 and a completed
job 2. -/
def storeC10 : MStore :=
  { jobs := [
      { id := 0, status := JobStatus.pending, total_batches := 1, updated_at := 0 },
      { id := 1, status := JobStatus.running, total_batches := 1, updated_at := 0 },
      { id := 2, status := JobStatus.completed, total_batches := 1, updated_at := 0 }]
    batches := []
    next_job_id := 3
    next_batch_id := 0 }

/-- Witness for decline_resume_marks_active_failed: with the resume
decision negative, jobs 0 (pending) and 1 (running) both end failed. -/
theorem decline_resume_marks_active_failed_witness :
    (getJob (get_or_create_job {} false [7] 10 9 storeC10).1 0).map
        (fun x => x.status) = some JobStatus.failed
    ∧ (getJob (get_or_create_job {} false [7] 10 9 storeC10).1 1).map
        (fun x => x.status) = some JobStatus.failed :=
  ⟨decline_resume_marks_active_failed {} [7] 10 9 storeC10 (by decide) (by decide)
      { id := 0, status := JobStatus.pending, total_batches := 1, updated_at := 0 }
      (by decide) (Or.inl rfl),
   decline_resume_marks_active_failed {} [7] 10 9 storeC10 (by decide) (by decide)
      { id := 1, status := JobStatus.running, total_batches := 1, updated_at := 0 }
      (by decide) (Or.inr rfl)⟩

/-- C8 — Behavior of the shutdown flag in process_batch.  First part: if
the flag were observed set before a record of an in-flight batch, the
batch would be abandoned by the InterruptedError raise and routed to
MarkBatchFailed with retry = True, returning it to a reclaimable Pending
state with worker_id and claimed_at cleared.  Second part: the per-record
loop with the flag constantly False — which is what the worker actually
runs, since worker.py initializes shutdown_flag = False and registers no
signal handler to ever set it — never takes the abandon branch: the
cooperative-shutdown path is unreachable in the worker process as coded. -/
theorem worker_shutdown_flag_dead :
    (∀ (cfg : MigrationSettings) (table : List MySQLRow) (ingest : Nat → Bool)
        (now : Nat) (s : MStore) (batch : IngestionBatch) (w : String)
        (b : IngestionBatch), keyUnique s → getBatch s batch.id = some b →
        b.worker_id = some w → b.status = BatchStatus.processing →
        b.retry_count < cfg.max_retries →
        ¬ (get_records_by_ids table batch.record_ids).isEmpty = true →
        ∃ s', process_batch cfg table (fun _ => true) ingest now s batch w
            = Except.ok (s', [])
          ∧ (getBatch s' batch.id).map (fun x => x.status) = some BatchStatus.pending
          ∧ (getBatch s' batch.id).map (fun x => x.retry_count)
              = some (b.retry_count + 1)
          ∧ (getBatch s' batch.id).map (fun x => x.worker_id) = some none
          ∧ (getBatch s' batch.id).map (fun x => x.claimed_at) = some none)
    ∧ (∀ (k : Nat) (w : String) (ingest : Nat → Bool) (now : Nat) (s : MStore)
        (records : List SummaryRecord) (i pc fc : Nat) (rep : List (Nat × Nat)),
        (process_loop k w (fun _ => false) ingest now s records i pc fc rep).2.2
          = false) := by
  constructor
  · intro cfg table ingest now s batch w b hu hb hw hst hrc hne
    obtain ⟨s', hmbf, hget, hoth, hku⟩ :=
      mark_batch_failed_owned cfg s batch.id w "Worker shutdown" true now b hu hb hw hst
    rw [if_pos ⟨rfl, hrc⟩] at hget
    refine ⟨s', ?_, ?_, ?_, ?_, ?_⟩
    · unfold process_batch
      cases hrec : get_records_by_ids table batch.record_ids with
      | nil => rw [hrec] at hne; simp at hne
      | cons r rs =>
        show (mark_batch_failed cfg s batch.id w "Worker shutdown" true now).map
            (fun p => (p.1, ([] : List (Nat × Nat)))) = Except.ok (s', [])
        rw [hmbf]
        rfl
    · simp [hget]
    · simp [hget]
    · simp [hget]
    · simp [hget]
  · intro k w ingest now s records i pc fc rep
    induction records generalizing s i pc fc rep with
    | nil =>
      by_cases hflush : pc > 0 || fc > 0 <;> simp [process_loop, hflush]
    | cons r rs ih =>
      simp only [process_loop, Bool.false_eq_true, if_false]
      by_cases hmod : ((i + 1) % 10 == 0) = true
      · rw [if_pos hmod]
        exact ih _ _ _ _ _
      · rw [if_neg hmod]
        exact ih _ _ _ _ _

/-- Witness for worker_shutdown_flag_dead: the flag set from the first
record abandons the concrete 3-record batch back to pending with
retry_count 1 and cleared ownership. -/
theorem worker_shutdown_flag_dead_witness :
    ∃ s', process_batch {} tableC5 (fun _ => true) (fun _ => true) 7
        storeC5 batchC5 "w1" = Except.ok (s', [])
      ∧ (getBatch s' batchC5.id).map (fun x => x.status) = some BatchStatus.pending
      ∧ (getBatch s' batchC5.id).map (fun x => x.retry_count) = some (batchC5.retry_count + 1)
      ∧ (getBatch s' batchC5.id).map (fun x => x.worker_id) = some none
      ∧ (getBatch s' batchC5.id).map (fun x => x.claimed_at) = some none :=
  worker_shutdown_flag_dead.1 {} tableC5 (fun _ => true) 7 storeC5 batchC5 "w1"
    batchC5 (by decide) rfl rfl rfl (by decide) (by decide)

end Migration
